import Mathlib

/-!
# DMRHub `internal/logging`: a shallow embedding of `log.go`

The package keeps two lazily created loggers (`accessLog`, `errorLog`).  Each
logger owns a log file, a buffered channel of 200 lines and a goroutine
(`Relay`) that moves lines from the channel to a standard-library
`log.Logger`.

Embedding conventions.

* Calls into the operating system (`os.Stat`, `os.Mkdir`, `os.Chown`,
  `os.OpenFile`, `runtime.GOOS`) are answered by an explicit environment
  `Env`; every call that is made is recorded, in order, as an `FsCall`.
* `log.Fatalf` and run-time panics end the computation with a `Fault`.
* A Go channel is its buffer, its capacity and its closed flag; the three
  channel operations return `Blocking` results (`done`, `blocked`, `panic`).
* A `*Logger` is the record `Logger` together with the address `addr` given to
  it when it was allocated; two pointers are identical when the addresses are.
* Goroutines are interleaved at the granularity of the definitions below: one
  step of `Relay` is one iteration of its `for` loop.
* Whether a `Write` on `os.Stderr` or on the open log file succeeds is an
  answer of the operating system too (`WriteEnv`), given for each `Print`.  A
  `Write` that fails is taken to write nothing.
-/

namespace DMRHub.Logging

/-! ## Operating-system interface -/

/-- The three ways `os.Stat` can answer, as far as `os.IsNotExist` tells them
apart. -/
inductive StatResult
  | found
  | notExist
  | otherError
deriving DecidableEq, Repr

/-- Answers of the operating system during one run of `createLogger`. -/
structure Env where
  /-- The constant `runtime.GOOS`. -/
  GOOS : String
  /-- Answer of `os.Stat("/var/log/DMRHub")`. -/
  stat : StatResult
  /-- Whether `os.Mkdir("/var/log/DMRHub", 0755)` succeeds. -/
  mkdir : Bool
  /-- Whether `os.Chown("/var/log/DMRHub", uid, gid)` succeeds. -/
  chown : Bool
  /-- Whether `os.OpenFile(name, O_RDWR|O_CREATE|O_APPEND, 0665)` succeeds. -/
  openFile : String → Bool

/-- One call into the operating system, with its argument and outcome. -/
inductive FsCall
  | Stat (name : String) (res : StatResult)
  | Mkdir (name : String) (ok : Bool)
  | Chown (name : String) (ok : Bool)
  | OpenFile (name : String) (ok : Bool)
deriving DecidableEq, Repr

/-- Abnormal ends of the process. -/
inductive Fault
  /-- Reached `log.Fatalf` (which calls `os.Exit(1)`); the argument is the file
  named in the diagnostic. -/
  | fatal (file : String)
  /-- A Go panic. -/
  | panic (msg : String)
deriving DecidableEq, Repr

/-- An open `*os.File`. -/
structure File where
  name : String
  /-- Set by the first `Close`. -/
  closed : Bool
  /-- Number of `Close` calls made on the handle. -/
  closeCalls : Nat
  /-- Lines written through this handle, oldest first. -/
  lines : List String
deriving DecidableEq, Repr

/-- The call `os.OpenFile(name, os.O_RDWR|os.O_CREATE|os.O_APPEND, 0665)`. -/
def osOpenFile (env : Env) (name : String) : List FsCall × Option File :=
  if env.openFile name then
    ([.OpenFile name true], some { name := name, closed := false, closeCalls := 0, lines := [] })
  else
    ([.OpenFile name false], none)

/-- The method `(*os.File).Close`: the first call closes the handle, later calls
return an error and change nothing else. -/
def File.Close (f : File) : File :=
  { f with closed := true, closeCalls := f.closeCalls + 1 }

/-- Answers of the operating system to the writes of one `Print`. -/
structure WriteEnv where
  /-- Whether a `Write` on `os.Stderr` succeeds. -/
  stderr : Bool
  /-- Whether a `Write` on the log file succeeds when the handle is open. -/
  file : Bool
deriving DecidableEq, Repr

/-- The method `(*os.File).Write` for one line: fails on a closed handle, and on
an open handle when the operating system refuses the write (`ok = false`). -/
def File.Write (f : File) (line : String) (ok : Bool) : Option File :=
  if f.closed then none
  else if ok then some { f with lines := f.lines ++ [line] }
  else none

/-! ## Log types and file names -/

/-- The Go type `LogType` is a string type. -/
abbrev LogType := String

def Access : LogType := "access"

def Error : LogType := "error"

/-- The directory `/var/log/DMRHub`. -/
def varLogDir : String := "/var/log/DMRHub"

/-- The value of `fmt.Sprintf("/var/log/DMRHub/DMRHub.%s.log", logType)`. -/
def varLogFile (logType : LogType) : String :=
  "/var/log/DMRHub/DMRHub." ++ logType ++ ".log"

/-- The value of `fmt.Sprintf("DMRHub.%s.log", logType)`. -/
def localLogFile (logType : LogType) : String :=
  "DMRHub." ++ logType ++ ".log"

/-- Result of a computation that calls the operating system: the calls made and
either a value or the fault that ended the process. -/
abbrev Sys (α : Type) := List FsCall × Except Fault α

/-- Run `k` after the calls `pre` have been made. -/
def Sys.after {α : Type} (pre : List FsCall) (k : Sys α) : Sys α :=
  (pre ++ k.1, k.2)

/-- The function `createLocalLog`. -/
def createLocalLog (env : Env) (logType : LogType) : Sys File :=
  let file := localLogFile logType
  match osOpenFile env file with
  | (calls, none) => (calls, .error (.fatal file))
  | (calls, some logFile) => (calls, .ok logFile)

/-- Lines 47 to 82 of `createLogger`: the `switch runtime.GOOS` that assigns
`logFile`. -/
def createLogger_logFile (env : Env) (logType : LogType) : Sys File :=
  if env.GOOS = "windows" then
    createLocalLog env logType
  else if env.GOOS = "darwin" then
    createLocalLog env logType
  else
    let file := varLogFile logType
    let st := [FsCall.Stat varLogDir env.stat]
    if env.stat = .notExist then
      if env.mkdir = false then
        Sys.after (st ++ [.Mkdir varLogDir false]) (createLocalLog env logType)
      else if env.chown = false then
        Sys.after (st ++ [.Mkdir varLogDir true, .Chown varLogDir false])
          (createLocalLog env logType)
      else
        match osOpenFile env file with
        | (calls, none) =>
          Sys.after (st ++ [.Mkdir varLogDir true, .Chown varLogDir true] ++ calls)
            (createLocalLog env logType)
        | (calls, some logFile) =>
          (st ++ [.Mkdir varLogDir true, .Chown varLogDir true] ++ calls, .ok logFile)
    else
      match osOpenFile env file with
      | (calls, none) => Sys.after (st ++ calls) (createLocalLog env logType)
      | (calls, some logFile) => (st ++ calls, .ok logFile)

/-! ## Channels -/

/-- Result of an operation that may suspend the calling goroutine. -/
inductive Blocking (α : Type)
  | done (a : α)
  | blocked
  | panic (msg : String)
deriving Repr

/-- A buffered `chan string`. -/
structure Chan where
  /-- Buffered elements, oldest first. -/
  buf : List String
  cap : Nat
  closed : Bool
deriving DecidableEq, Repr

/-- The value of `make(chan string, n)`. -/
def Chan.make (n : Nat) : Chan := { buf := [], cap := n, closed := false }

/-- The statement `c <- m`. -/
def Chan.send (c : Chan) (m : String) : Blocking Chan :=
  if c.closed then .panic "send on closed channel"
  else if c.buf.length < c.cap then .done { c with buf := c.buf ++ [m] }
  else .blocked

/-- The expression `m, ok := <-c`. -/
def Chan.recv (c : Chan) : Blocking (String × Bool × Chan) :=
  match c.buf with
  | m :: rest => .done (m, true, { c with buf := rest })
  | [] => if c.closed then .done ("", false, c) else .blocked

/-- The statement `close(c)`. -/
def Chan.close (c : Chan) : Except Fault Chan :=
  if c.closed then .error (.panic "close of closed channel")
  else .ok { c with closed := true }

/-! ## Loggers -/

/-- Destinations of a standard-library `log.Logger`. -/
inductive Dest
  | stderr
  | file
deriving DecidableEq, Repr

/-- State of the goroutine started by `go logger.Relay()`. -/
inductive RelayState
  | running
  | returned
deriving DecidableEq, Repr

/-- The struct `Logger`, the state of the objects it points to, and the history
of the logger.  `logger` is the output of the `log.Logger`: the writers in the
order in which `io.MultiWriter` calls them. -/
structure Logger where
  /-- Address of the allocation `&Logger{...}`. -/
  addr : Nat
  logger : List Dest
  file : File
  Writer : List Dest
  channel : Chan
  /-- Lines this logger has put on `os.Stderr`, oldest first. -/
  stderr : List String
  /-- Arguments of the calls `l.logger.Print(msg)`, oldest first. -/
  printed : List String
  /-- Lines whose send `l.channel <- line` has completed, oldest first. -/
  enqueued : List String
  relay : RelayState
deriving DecidableEq, Repr

/-- Lines 84 to 101 of `createLogger`, given the allocation address.  A `logType`
that is neither `Access` nor `Error` leaves `sysLogger` nil, and
`sysLogger.Writer()` panics. -/
def createLogger (env : Env) (addr : Nat) (logType : LogType) : Sys Logger :=
  match createLogger_logFile env logType with
  | (calls, .error e) => (calls, .error e)
  | (calls, .ok logFile) =>
    let sysLogger : Option (List Dest) :=
      if logType = Access then some [.file]
      else if logType = Error then some [.stderr, .file]
      else none
    match sysLogger with
    | none => (calls, .error (.panic "invalid memory address or nil pointer dereference"))
    | some out =>
      (calls, .ok
        { addr := addr
          logger := out
          file := logFile
          Writer := out
          channel := Chan.make 200
          stderr := []
          printed := []
          enqueued := []
          relay := .running })

/-- The call `w.Write(line)` for one destination of the `log.Logger`; `none` is a
write error. -/
def Logger.write (w : WriteEnv) (l : Logger) (d : Dest) (line : String) : Option Logger :=
  match d with
  | .stderr => if w.stderr then some { l with stderr := l.stderr ++ [line] } else none
  | .file =>
    match l.file.Write line w.file with
    | none => none
    | some f => some { l with file := f }

/-- The method `Write` of `io.MultiWriter`: the writers are called in order and
the first error ends the call.  (A `log.Logger` over a single writer is the
one-element case.) -/
def Logger.multiWrite (w : WriteEnv) (l : Logger) (line : String) : List Dest → Logger
  | [] => l
  | d :: ds =>
    match l.write w d line with
    | none => l
    | some l1 => Logger.multiWrite w l1 line ds

/-- The call `l.logger.Print(msg)`: one `Write` on the output of the
`log.Logger`; `Print` discards the error of that `Write`.  The date and time
that `log.LstdFlags` puts in front of the line are left out. -/
def Logger.Print (w : WriteEnv) (l : Logger) (msg : String) : Logger :=
  Logger.multiWrite w { l with printed := l.printed ++ [msg] } msg l.logger

/-- One iteration of the `for` loop of `Relay`; `w` answers the writes of its
`Print`. -/
def Logger.Relay (w : WriteEnv) (l : Logger) : Blocking Logger :=
  match l.channel.recv with
  | .blocked => .blocked
  | .panic m => .panic m
  | .done (msg, ok, c) =>
    if ok = false then .done { l with channel := c, relay := .returned }
    else .done (Logger.Print w { l with channel := c } msg)

/-- The goroutine `Relay` run for at most `fuel` iterations, until it blocks or
returns; `ws k` answers the writes of the iteration that has `k` iterations of
fuel left after it. -/
def Logger.RelayLoop (ws : Nat → WriteEnv) : Nat → Logger → Logger
  | 0, l => l
  | fuel + 1, l =>
    if l.relay = .returned then l
    else
      match l.Relay (ws fuel) with
      | .done l1 => Logger.RelayLoop ws fuel l1
      | _ => l

/-! ## Producer side -/

/-- A function value passed to `Log` or `Logf`, seen through
`runtime.FuncForPC(reflect.ValueOf(i).Pointer()).Name()`. -/
structure Func where
  Name : String
deriving DecidableEq, Repr

/-- The function `strings.TrimPrefix`. -/
def TrimPrefix (s pfx : String) : String :=
  if pfx.data.isPrefixOf s.data then String.mk (s.data.drop pfx.data.length) else s

/-- The function `getFunctionName`. -/
def getFunctionName (i : Func) : String :=
  TrimPrefix i.Name "github.com/USA-RedDragon/DMRHub/"

/-- The statement `l.channel <- line` together with the history of the
logger. -/
def Logger.enqueue (l : Logger) (line : String) : Blocking Logger :=
  match l.channel.send line with
  | .done c => .done { l with channel := c, enqueued := l.enqueued ++ [line] }
  | .blocked => .blocked
  | .panic m => .panic m

/-- The method `Log`; `fmt.Sprintf("%s: %s", a, b)` is `a ++ ": " ++ b`. -/
def Logger.Log (l : Logger) (function : Func) (format : String) : Blocking Logger :=
  l.enqueue (getFunctionName function ++ ": " ++ format)

/-- The method `Logf`; the inner `fmt.Sprintf(format, args...)` is the parameter
`Sprintf`. -/
def Logger.Logf {α : Type} (Sprintf : String → List α → String) (l : Logger)
    (function : Func) (format : String) (args : List α) : Blocking Logger :=
  l.enqueue (getFunctionName function ++ ": " ++ Sprintf format args)

/-! ## The registry: `accessLog`, `errorLog`, `GetLogger`, `Close` -/

/-- The package variables `accessLog` and `errorLog` (nil is `none`), with the
history of the process: the number of `Logger` allocations, the calls made into
the operating system and the arguments of the runs of `createLogger`. -/
structure Registry where
  accessLog : Option Logger
  errorLog : Option Logger
  allocs : Nat
  calls : List FsCall
  created : List LogType

/-- State of the package at process start. -/
def Registry.init : Registry :=
  { accessLog := none, errorLog := none, allocs := 0, calls := [], created := [] }

/-- The statements `accessLog = createLogger(logType); return accessLog` of the
`Access` case of `GetLogger`. -/
def Registry.createAccess (env : Env) (r : Registry) : Registry × Except Fault Nat :=
  match createLogger env r.allocs Access with
  | (calls, .error e) =>
    ({ r with calls := r.calls ++ calls, created := r.created ++ [Access] }, .error e)
  | (calls, .ok l) =>
    ({ r with accessLog := some l, allocs := r.allocs + 1, calls := r.calls ++ calls,
              created := r.created ++ [Access] }, .ok l.addr)

/-- The statements `errorLog = createLogger(logType); return errorLog` of the
`Error` case of `GetLogger`. -/
def Registry.createError (env : Env) (r : Registry) : Registry × Except Fault Nat :=
  match createLogger env r.allocs Error with
  | (calls, .error e) =>
    ({ r with calls := r.calls ++ calls, created := r.created ++ [Error] }, .error e)
  | (calls, .ok l) =>
    ({ r with errorLog := some l, allocs := r.allocs + 1, calls := r.calls ++ calls,
              created := r.created ++ [Error] }, .ok l.addr)

/-- The function `GetLogger`, run without interruption; the result is the new
state and the returned pointer. -/
def GetLogger (env : Env) (logType : LogType) (r : Registry) : Registry × Except Fault Nat :=
  if logType = Access then
    match r.accessLog with
    | some l => (r, .ok l.addr)
    | none => r.createAccess env
  else if logType = Error then
    match r.errorLog with
    | some l => (r, .ok l.addr)
    | none => r.createError env
  else
    (r, .error (.panic "Logging failed"))

/-- The panic of a field access through a nil pointer. -/
def nilDereference : Fault :=
  .panic "invalid memory address or nil pointer dereference"

/-- The function `Close`, run without interruption: the state it leaves behind
and the fault that ended it, if any. -/
def Close (r : Registry) : Registry × Option Fault :=
  -- close(accessLog.channel)
  match r.accessLog with
  | none => (r, some nilDereference)
  | some a =>
    match a.channel.close with
    | .error e => (r, some e)
    | .ok ca =>
      let r1 := { r with accessLog := some { a with channel := ca } }
      -- close(errorLog.channel)
      match r1.errorLog with
      | none => (r1, some nilDereference)
      | some e =>
        match e.channel.close with
        | .error f => (r1, some f)
        | .ok ce =>
          -- _ = accessLog.file.Close()
          let a2 := { a with channel := ca, file := a.file.Close }
          -- _ = errorLog.file.Close()
          let e2 := { e with channel := ce, file := e.file.Close }
          ({ r1 with accessLog := some a2, errorLog := some e2 }, none)

/-! ## One logger as a transition system -/

/-- Steps that change the state of one logger: the two producer methods, one
iteration of `Relay` with the answers to its writes, and the two statements of
`Close` that concern the logger. -/
inductive Action (α : Type)
  | Log (function : Func) (format : String)
  | Logf (function : Func) (format : String) (args : List α)
  | Relay (w : WriteEnv)
  | closeChannel
  | closeFile

/-- The state after a step that completes; `none` when the step blocks, panics
or belongs to a goroutine that has returned. -/
def step {α : Type} (Sprintf : String → List α → String) (l : Logger) :
    Action α → Option Logger
  | .Log function format =>
    match l.Log function format with
    | .done l1 => some l1
    | _ => none
  | .Logf function format args =>
    match l.Logf Sprintf function format args with
    | .done l1 => some l1
    | _ => none
  | .Relay w =>
    if l.relay = .running then
      match l.Relay w with
      | .done l1 => some l1
      | _ => none
    else none
  | .closeChannel =>
    match l.channel.close with
    | .ok c => some { l with channel := c }
    | .error _ => none
  | .closeFile => some { l with file := l.file.Close }

/-- The state after a sequence of steps, each of which completes. -/
def run {α : Type} (Sprintf : String → List α → String) (l : Logger) :
    List (Action α) → Option Logger
  | [] => some l
  | a :: as =>
    match step Sprintf l a with
    | none => none
    | some l1 => run Sprintf l1 as

/-- States of a logger that `createLogger` returned, after any sequence of
completed steps. -/
def Reachable {α : Type} (Sprintf : String → List α → String) (l : Logger) : Prop :=
  ∃ (env : Env) (addr : Nat) (logType : LogType) (calls : List FsCall) (l0 : Logger)
    (acts : List (Action α)),
    createLogger env addr logType = (calls, .ok l0) ∧ run Sprintf l0 acts = some l

/-! ## The choice of the log file, in closed form -/

/-- The handle that a successful `os.OpenFile` returns. -/
def File.opened (name : String) : File :=
  { name := name, closed := false, closeCalls := 0, lines := [] }

/-- Whether `createLogger` reaches an `os.OpenFile` of the file under
`/var/log/DMRHub`. -/
def varLogAttempted (env : Env) : Bool :=
  !(env.GOOS = "windows" || env.GOOS = "darwin") &&
    (!(env.stat = .notExist) || (env.mkdir && env.chown))

/-- The calls that `createLogger` makes on `/var/log/DMRHub` and the file in
it. -/
def varLogCalls (env : Env) (logType : LogType) : List FsCall :=
  if env.GOOS = "windows" || env.GOOS = "darwin" then []
  else
    [FsCall.Stat varLogDir env.stat] ++
    (if env.stat = .notExist then
      [FsCall.Mkdir varLogDir env.mkdir] ++
        (if env.mkdir then [FsCall.Chown varLogDir env.chown] else [])
     else []) ++
    (if varLogAttempted env then
      [FsCall.OpenFile (varLogFile logType) (env.openFile (varLogFile logType))]
     else [])

/-! ## Example inputs -/

/-- A Linux host on which every call succeeds. -/
def linuxEnv : Env :=
  { GOOS := "linux", stat := .found, mkdir := true, chown := true, openFile := fun _ => true }

/-- A Linux host without `/var/log/DMRHub` and without the right to create it;
files in the working directory can be opened. -/
def linuxNoVarLog : Env :=
  { GOOS := "linux", stat := .notExist, mkdir := false, chown := false,
    openFile := fun _ => true }

/-- The logger that `createLogger` returns at address 0 for `access` on
`linuxNoVarLog`. -/
def localAccessLogger : Logger :=
  { addr := 0
    logger := [.file]
    file := { name := "DMRHub.access.log", closed := false, closeCalls := 0, lines := [] }
    Writer := [.file]
    channel := { buf := [], cap := 200, closed := false }
    stderr := []
    printed := []
    enqueued := []
    relay := .running }

/-- A stand-in for `fmt.Sprintf` in the examples, right for formats without
verbs and without arguments. -/
def verbatim (format : String) (_ : List String) : String := format

/-- A function of the module, as passed to `Log`. -/
def startFunc : Func := { Name := "github.com/USA-RedDragon/DMRHub/internal/http.Start" }

/-- The error logger of `linuxEnv` after `Log(startFunc, "boom")` and one
iteration of `Relay` whose writes succeeded. -/
def errorLoggerAfterBoom : Logger :=
  { addr := 0
    logger := [.stderr, .file]
    file := { name := "/var/log/DMRHub/DMRHub.error.log", closed := false, closeCalls := 0,
              lines := ["internal/http.Start: boom"] }
    Writer := [.stderr, .file]
    channel := { buf := [], cap := 200, closed := false }
    stderr := ["internal/http.Start: boom"]
    printed := ["internal/http.Start: boom"]
    enqueued := ["internal/http.Start: boom"]
    relay := .running }

/-- The access logger of `linuxEnv` after `Log(startFunc, "GET /")` twice and
one iteration of `Relay` whose write succeeded. -/
def accessLoggerAfterTwo : Logger :=
  { addr := 0
    logger := [.file]
    file := { name := "/var/log/DMRHub/DMRHub.access.log", closed := false, closeCalls := 0,
              lines := ["internal/http.Start: GET /"] }
    Writer := [.file]
    channel := { buf := ["internal/http.Start: GET /"], cap := 200, closed := false }
    stderr := []
    printed := ["internal/http.Start: GET /"]
    enqueued := ["internal/http.Start: GET /", "internal/http.Start: GET /"]
    relay := .running }

/-- An access logger of `linuxEnv` whose channel holds 200 lines. -/
def fullAccessLogger : Logger :=
  { addr := 0
    logger := [.file]
    file := { name := "/var/log/DMRHub/DMRHub.access.log", closed := false, closeCalls := 0,
              lines := [] }
    Writer := [.file]
    channel := { buf := List.replicate 200 "internal/http.Start: GET /", cap := 200,
                 closed := false }
    stderr := []
    printed := []
    enqueued := List.replicate 200 "internal/http.Start: GET /"
    relay := .running }

/-! ## Sequences of calls of `GetLogger` -/

/-- The package variable that `GetLogger` reads for a log type. -/
def Registry.lookup (logType : LogType) (r : Registry) : Option Logger :=
  if logType = Access then r.accessLog
  else if logType = Error then r.errorLog
  else none

/-- Calls of `GetLogger` made one after the other, each with the answers the
operating system gives during it.  The run ends at the first fault.  The result
is the final state and, for each call that returned, its log type and the
pointer it returned. -/
def GetLoggers : List (LogType × Env) → Registry → Registry × List (LogType × Nat)
  | [], r => (r, [])
  | (logType, env) :: rest, r =>
    match GetLogger env logType r with
    | (r1, .error _) => (r1, [])
    | (r1, .ok p) => ((GetLoggers rest r1).1, (logType, p) :: (GetLoggers rest r1).2)

/-- Whether a call is a successful open of one of the two log files of a log
type. -/
def FsCall.opens (logType : LogType) : FsCall → Bool
  | .OpenFile n true => n = varLogFile logType || n = localLogFile logType
  | _ => false

/-- Number of successful opens of a log file of the log type. -/
def filesOpened (logType : LogType) (calls : List FsCall) : Nat :=
  calls.countP (FsCall.opens logType)

/-- Bookkeeping of a registry in which no call has faulted: for each of the two
log types, `createLogger` has run once and one file has been opened if the
variable is set, and neither has happened if it is nil. -/
def RegInv (r : Registry) : Prop :=
  ∀ c, c = Access ∨ c = Error →
    r.created.count c = (if (r.lookup c).isSome then 1 else 0) ∧
    filesOpened c r.calls = (if (r.lookup c).isSome then 1 else 0)

/-- The registry of `linuxEnv` after one call `GetLogger(Access)`. -/
def registryAfterAccess : Registry :=
  { accessLog := some
      { addr := 0
        logger := [.file]
        file := { name := "/var/log/DMRHub/DMRHub.access.log", closed := false,
                  closeCalls := 0, lines := [] }
        Writer := [.file]
        channel := { buf := [], cap := 200, closed := false }
        stderr := []
        printed := []
        enqueued := []
        relay := .running }
    errorLog := none
    allocs := 1
    calls := [.Stat "/var/log/DMRHub" .found, .OpenFile "/var/log/DMRHub/DMRHub.access.log" true]
    created := ["access"] }

/-! ## `Close` and the goroutine `Relay` -/

/-- The registry of `linuxEnv` after `GetLogger(Access)` and
`GetLogger(Error)`. -/
def registryBoth : Registry :=
  (GetLogger linuxEnv Error (GetLogger linuxEnv Access Registry.init).1).1

/-- The registry of `linuxEnv` after `GetLogger(Error)` alone. -/
def registryErrorOnly : Registry :=
  (GetLogger linuxEnv Error Registry.init).1

/-- A method call on the logger that `accessLog` points to; a call that does
not complete leaves the state as it is. -/
def Registry.onAccessLog (f : Logger → Blocking Logger) (r : Registry) : Registry :=
  match r.accessLog with
  | none => r
  | some l =>
    match f l with
    | .done l1 => { r with accessLog := some l1 }
    | _ => r

/-- The registry `registryBoth` after `accessLog.Log(startFunc, "GET /")` has
returned and before `Relay` has run. -/
def registryPending : Registry :=
  registryBoth.onAccessLog (fun l => l.Log startFunc "GET /")

/-! ## Goroutines that call `GetLogger` at the same time -/

/-- The assignment and the return after the nil check of `GetLogger`. -/
def Registry.create (env : Env) (logType : LogType) (r : Registry) :
    Registry × Except Fault Nat :=
  if logType = Access then r.createAccess env
  else if logType = Error then r.createError env
  else (r, .error (.panic "Logging failed"))

/-- Where a goroutine is in its call of `GetLogger`: before the nil check, after
a nil check that found nil, or done. -/
inductive Pc
  | atCheck
  | atCreate
  | returned (p : Nat)
  | faulted (f : Fault)
deriving DecidableEq, Repr

/-- The package variables and the goroutines that are calling
`GetLogger(logType)`. -/
structure Conc where
  reg : Registry
  pcs : List Pc

/-- One step of goroutine `i`: the nil check, or the statements
`accessLog = createLogger(logType); return accessLog` (for `Error`: `errorLog`)
that follow a check that found nil. -/
def Conc.step (env : Env) (logType : LogType) (s : Conc) (i : Nat) : Conc :=
  match s.pcs[i]? with
  | some .atCheck =>
    match s.reg.lookup logType with
    | some l => { s with pcs := s.pcs.set i (.returned l.addr) }
    | none => { s with pcs := s.pcs.set i .atCreate }
  | some .atCreate =>
    match s.reg.create env logType with
    | (r1, .ok p) => { reg := r1, pcs := s.pcs.set i (.returned p) }
    | (r1, .error f) => { reg := r1, pcs := s.pcs.set i (.faulted f) }
  | _ => s

/-- The state after the goroutines have taken steps in the order of the
schedule. -/
def Conc.run (env : Env) (logType : LogType) (s : Conc) (schedule : List Nat) : Conc :=
  schedule.foldl (Conc.step env logType) s

/-- Two goroutines about to call `GetLogger` in a new process. -/
def Conc.two : Conc :=
  { reg := Registry.init, pcs := [.atCheck, .atCheck] }

/-! ## Predicates used in the statements -/

/-- A handle as `os.OpenFile` returns it. -/
def File.fresh (f : File) : Prop :=
  f.closed = false ∧ f.closeCalls = 0 ∧ f.lines = []

/-- Facts that hold of a logger in every state the transition system reaches. -/
structure Inv (l : Logger) : Prop where
  order : l.printed ++ l.channel.buf = l.enqueued
  cap : l.channel.cap = 200
  bound : l.channel.buf.length ≤ 200
  dests : l.logger = [.file] ∨ l.logger = [.stderr, .file]
  fileSub : l.file.lines.Sublist l.printed
  errSub : l.stderr.Sublist l.printed
  fileErr : l.logger = [.stderr, .file] → l.file.lines.Sublist l.stderr
  noerrs : l.logger = [.file] → l.stderr = []
  live : l.relay = .returned → l.channel.buf = [] ∧ l.channel.closed = true

/-- The file after one line was offered to it: the line is appended when the
handle is open and the operating system accepts the write. -/
def File.offer (f : File) (line : String) (ok : Bool) : File :=
  if f.closed then f else if ok then { f with lines := f.lines ++ [line] } else f

/-! ## Shared facts -/

theorem varLogFile_ne_localLogFile (c : LogType) (hc : c = Access ∨ c = Error) :
    varLogFile c ≠ localLogFile c := by
  rcases hc with rfl | rfl <;> decide

/-- What `createLogger` adds to the result of the `switch runtime.GOOS`, for the
two log types of the package. -/
theorem createLogger_eq (env : Env) (addr : Nat) (c : LogType) (hc : c = Access ∨ c = Error) :
    createLogger env addr c =
      match createLogger_logFile env c with
      | (calls, .error e) => (calls, .error e)
      | (calls, .ok logFile) =>
        (calls, .ok
          { addr := addr
            logger := if c = Access then [.file] else [.stderr, .file]
            file := logFile
            Writer := if c = Access then [.file] else [.stderr, .file]
            channel := Chan.make 200
            stderr := []
            printed := []
            enqueued := []
            relay := .running }) := by
  have hne : Error ≠ Access := by decide
  rcases hc with rfl | rfl
  · unfold createLogger
    rcases createLogger_logFile env Access with ⟨calls, e | f⟩ <;> simp
  · unfold createLogger
    rcases createLogger_logFile env Error with ⟨calls, e | f⟩ <;> simp [hne]

theorem osOpenFile_fresh (env : Env) (name : String) (f : File)
    (h : (osOpenFile env name).2 = some f) : f.fresh ∧ f.name = name := by
  unfold osOpenFile at h
  split at h
  · simp at h; subst h; simp [File.fresh]
  · simp at h

theorem createLocalLog_fresh (env : Env) (c : LogType) (f : File)
    (h : (createLocalLog env c).2 = .ok f) : f.fresh := by
  unfold createLocalLog at h
  have := osOpenFile_fresh env (localLogFile c)
  rcases hx : osOpenFile env (localLogFile c) with ⟨calls, _ | g⟩
  · simp [hx] at h
  · simp [hx] at h this; subst h; exact this.1

theorem createLogger_logFile_fresh (env : Env) (c : LogType) (f : File)
    (h : (createLogger_logFile env c).2 = .ok f) : f.fresh := by
  have hl := createLocalLog_fresh env c f
  have hv := osOpenFile_fresh env (varLogFile c)
  unfold createLogger_logFile at h
  rcases hx : osOpenFile env (varLogFile c) with ⟨calls, _ | g⟩ <;>
  simp only [hx, Sys.after] at h hv <;>
  split_ifs at h <;> first | exact hl h | (simp at h; subst h; exact (hv _ rfl).1)

/-- The shape of every logger that `createLogger` returns. -/
theorem createLogger_ok (env : Env) (addr : Nat) (c : LogType) (calls : List FsCall)
    (l : Logger) (h : createLogger env addr c = (calls, .ok l)) :
    (c = Access ∨ c = Error) ∧ l.file.fresh ∧
      (createLogger_logFile env c).2 = .ok l.file ∧
      l.addr = addr ∧
      l.logger = (if c = Access then [.file] else [.stderr, .file]) ∧
      l.Writer = l.logger ∧
      l.channel = Chan.make 200 ∧ l.stderr = [] ∧ l.printed = [] ∧ l.enqueued = [] ∧
      l.relay = .running := by
  have hf := createLogger_logFile_fresh env c
  unfold createLogger at h
  rcases hx : createLogger_logFile env c with ⟨cs, e | f⟩
  · simp [hx] at h
  · simp only [hx] at h hf
    by_cases hA : c = Access
    · simp [hA] at h; obtain ⟨-, rfl⟩ := h
      simp [hA, hf]
    · by_cases hE : c = Error
      · simp [hA, hE] at h
        have hne : Error ≠ Access := by decide
        simp [hne] at h
        obtain ⟨-, rfl⟩ := h
        simp [hE, hne, hf]
      · simp [hA, hE] at h

theorem Inv_createLogger (env : Env) (addr : Nat) (c : LogType) (calls : List FsCall)
    (l : Logger) (h : createLogger env addr c = (calls, .ok l)) : Inv l := by
  obtain ⟨hc, hf, -, -, hlog, -, hch, hs, hp, he, hrl⟩ := createLogger_ok env addr c calls l h
  have hne : Error ≠ Access := by decide
  constructor
  · simp [hp, hch, he, Chan.make]
  · simp [hch, Chan.make]
  · simp [hch, Chan.make]
  · rcases hc with rfl | rfl
    · left; simpa using hlog
    · right; simpa [hne] using hlog
  · rw [hf.2.2]; exact List.nil_sublist _
  · rw [hs]; exact List.nil_sublist _
  · intro _; rw [hf.2.2]; exact List.nil_sublist _
  · intro _; exact hs
  · intro hx; rw [hrl] at hx; cases hx

/-- Effect of `Print` on a logger whose output is the file alone. -/
theorem Print_file (w : WriteEnv) (l : Logger) (msg : String) (h : l.logger = [.file]) :
    l.Print w msg =
      { l with printed := l.printed ++ [msg], file := l.file.offer msg w.file } := by
  unfold Logger.Print
  rw [h]
  cases hc : l.file.closed <;> cases hw : w.file <;>
  simp [Logger.multiWrite, Logger.write, File.Write, File.offer, hc, hw]

/-- Effect of `Print` on a logger whose output is standard error, then the
file: a failed write on standard error ends the `Write` of the
`io.MultiWriter` before the file is reached. -/
theorem Print_stderr_file (w : WriteEnv) (l : Logger) (msg : String)
    (h : l.logger = [.stderr, .file]) :
    l.Print w msg =
      if w.stderr = true then
        { l with printed := l.printed ++ [msg], stderr := l.stderr ++ [msg],
                 file := l.file.offer msg w.file }
      else { l with printed := l.printed ++ [msg] } := by
  unfold Logger.Print
  rw [h]
  cases hc : l.file.closed <;> cases hw : w.file <;> cases hs : w.stderr <;>
  simp [Logger.multiWrite, Logger.write, File.Write, File.offer, hc, hw, hs]

theorem offer_closed (f : File) (m : String) (ok : Bool) :
    (f.offer m ok).closed = f.closed := by
  unfold File.offer
  split_ifs <;> rfl

theorem offer_sublist (f : File) (m : String) (ok : Bool) (p : List String)
    (h : f.lines.Sublist p) : (f.offer m ok).lines.Sublist (p ++ [m]) := by
  unfold File.offer
  split_ifs
  · exact h.trans (List.sublist_append_left _ _)
  · exact List.Sublist.append_right h _
  · exact h.trans (List.sublist_append_left _ _)

theorem Inv_Print (w : WriteEnv) (l : Logger) (m : String) (rest : List String) (h : Inv l)
    (hb : l.channel.buf = m :: rest) :
    Inv (Logger.Print w { l with channel := { l.channel with buf := rest } } m) := by
  obtain ⟨ho, hc, hbd, hd, hfs, hes, hfe, hn, hlv⟩ := h
  have hne : ([Dest.file] : List Dest) ≠ [.stderr, .file] := by decide
  have ho2 : (l.printed ++ [m]) ++ rest = l.enqueued := by rw [← ho, hb]; simp
  have hbd2 : rest.length ≤ 200 := by rw [hb] at hbd; simp at hbd; omega
  have hlv2 : l.relay = .returned → rest = [] ∧ l.channel.closed = true := by
    intro hx
    have := (hlv hx).1
    rw [hb] at this
    cases this
  rcases hd with hd | hd
  · rw [Print_file w { l with channel := { l.channel with buf := rest } } m hd]
    exact ⟨ho2, hc, hbd2, Or.inl hd, offer_sublist _ _ _ _ hfs,
      hes.trans (List.sublist_append_left _ _), fun hx => absurd (hd.symm.trans hx) hne,
      hn, hlv2⟩
  · rw [Print_stderr_file w { l with channel := { l.channel with buf := rest } } m hd]
    cases hw : w.stderr
    · rw [if_neg (by simp)]
      exact ⟨ho2, hc, hbd2, Or.inr hd, hfs.trans (List.sublist_append_left _ _),
        hes.trans (List.sublist_append_left _ _), hfe,
        fun hx => absurd (hx.symm.trans hd) hne, hlv2⟩
    · rw [if_pos rfl]
      exact ⟨ho2, hc, hbd2, Or.inr hd, offer_sublist _ _ _ _ hfs,
        List.Sublist.append_right hes _, fun hx => offer_sublist _ _ _ _ (hfe hx),
        fun hx => absurd (hx.symm.trans hd) hne, hlv2⟩

theorem Inv_enqueue (l l1 : Logger) (line : String) (h : Inv l)
    (hs : l.enqueue line = .done l1) : Inv l1 := by
  obtain ⟨ho, hc, hbd, hd, hfs, hes, hfe, hn, hlv⟩ := h
  unfold Logger.enqueue Chan.send at hs
  split_ifs at hs with h1 h2
  simp at hs
  subst hs
  constructor <;> simp_all
  · rw [← ho]; simp
  · omega

/-- Every completed step keeps the invariant. -/
theorem Inv_step {α : Type} (Sprintf : String → List α → String) (l l1 : Logger)
    (a : Action α) (h : Inv l) (hs : step Sprintf l a = some l1) : Inv l1 := by
  cases a with
  | Log function format =>
    simp only [step, Logger.Log] at hs
    split at hs
    · next l2 hx => simp at hs; subst hs; exact Inv_enqueue l _ _ h hx
    · simp at hs
  | Logf function format args =>
    simp only [step, Logger.Logf] at hs
    split at hs
    · next l2 hx => simp at hs; subst hs; exact Inv_enqueue l _ _ h hx
    · simp at hs
  | Relay w =>
    simp only [step, Logger.Relay, Chan.recv] at hs
    by_cases hr : l.relay = .running
    swap
    · simp [hr] at hs
    rw [if_pos hr] at hs
    rcases hb : l.channel.buf with _ | ⟨m, rest⟩
    · simp only [hb] at hs
      cases hcl : l.channel.closed <;> simp [hcl] at hs
      subst hs
      obtain ⟨ho, hc, hbd, hd, hfs, hes, hfe, hn, hlv⟩ := h
      constructor <;> simp_all
    · simp only [hb] at hs
      simp at hs
      subst hs
      exact Inv_Print w l m rest h hb
  | closeChannel =>
    simp only [step, Chan.close] at hs
    split_ifs at hs
    simp at hs
    subst hs
    obtain ⟨ho, hc, hbd, hd, hfs, hes, hfe, hn, hlv⟩ := h
    constructor <;> simp_all
  | closeFile =>
    simp only [step, File.Close] at hs
    simp at hs
    subst hs
    obtain ⟨ho, hc, hbd, hd, hfs, hes, hfe, hn, hlv⟩ := h
    constructor <;> simp_all

/-- The invariant holds after every run that starts in a state where it
holds. -/
theorem Inv_run {α : Type} (Sprintf : String → List α → String) :
    ∀ (acts : List (Action α)) (l l1 : Logger), Inv l → run Sprintf l acts = some l1 → Inv l1
  | [], l, l1, h, hr => by simp [run] at hr; subst hr; exact h
  | a :: as, l, l1, h, hr => by
    simp only [run] at hr
    split at hr
    · simp at hr
    · next l2 hx => exact Inv_run Sprintf as l2 l1 (Inv_step Sprintf l l2 a h hx) hr

/-- The invariant holds in every reachable state. -/
theorem Inv_of_Reachable {α : Type} (Sprintf : String → List α → String) (l : Logger)
    (h : Reachable Sprintf l) : Inv l := by
  obtain ⟨env, addr, c, calls, l0, acts, h0, hr⟩ := h
  exact Inv_run Sprintf acts l0 l (Inv_createLogger env addr c calls l0 h0) hr

/-! ## The choice of the log file -/

theorem createLocalLog_eq (env : Env) (c : LogType) :
    createLocalLog env c =
      if env.openFile (localLogFile c) = true then
        ([.OpenFile (localLogFile c) true], .ok (File.opened (localLogFile c)))
      else
        ([.OpenFile (localLogFile c) false], .error (.fatal (localLogFile c))) := by
  unfold createLocalLog osOpenFile
  cases h : env.openFile (localLogFile c) <;> simp [h, File.opened]

/-- The `switch runtime.GOOS` of `createLogger` in closed form. -/
theorem createLogger_logFile_eq (env : Env) (c : LogType) :
    createLogger_logFile env c =
      if varLogAttempted env = true ∧ env.openFile (varLogFile c) = true then
        (varLogCalls env c, .ok (File.opened (varLogFile c)))
      else
        Sys.after (varLogCalls env c) (createLocalLog env c) := by
  unfold createLogger_logFile osOpenFile varLogAttempted varLogCalls Sys.after
  by_cases hw : env.GOOS = "windows" <;> by_cases hd : env.GOOS = "darwin" <;>
  cases hs : env.stat <;> cases hm : env.mkdir <;> cases hch : env.chown <;>
  cases hv : env.openFile (varLogFile c) <;>
  simp [hw, hd, hs, hm, hch, hv, File.opened, varLogAttempted]

theorem OpenFile_mem_varLogCalls (env : Env) (c : LogType) (n : String) (b : Bool) :
    FsCall.OpenFile n b ∈ varLogCalls env c ↔
      (n = varLogFile c ∧ b = env.openFile (varLogFile c) ∧ varLogAttempted env = true) := by
  unfold varLogCalls
  by_cases hg : (env.GOOS = "windows" || env.GOOS = "darwin") = true
  · simp [hg, varLogAttempted]
  · cases ha : varLogAttempted env <;> cases hs : env.stat <;> cases hm : env.mkdir <;>
    simp [hg, ha, hs, hm]

theorem varLogCalls_desktop (env : Env) (c : LogType)
    (h : env.GOOS = "windows" ∨ env.GOOS = "darwin") : varLogCalls env c = [] := by
  unfold varLogCalls
  rcases h with h | h <;> simp [h]

/-- The result of `createLogger` for the two log types of the package, in
closed form. -/
theorem createLogger_cases (env : Env) (addr : Nat) (c : LogType)
    (hc : c = Access ∨ c = Error) :
    (varLogAttempted env = true ∧ env.openFile (varLogFile c) = true ∧
      (createLogger env addr c).1 = varLogCalls env c ∧
      ∃ l, (createLogger env addr c).2 = .ok l ∧ l.file = File.opened (varLogFile c)) ∨
    (¬ (varLogAttempted env = true ∧ env.openFile (varLogFile c) = true) ∧
      env.openFile (localLogFile c) = true ∧
      (createLogger env addr c).1 = varLogCalls env c ++ [.OpenFile (localLogFile c) true] ∧
      ∃ l, (createLogger env addr c).2 = .ok l ∧ l.file = File.opened (localLogFile c)) ∨
    (¬ (varLogAttempted env = true ∧ env.openFile (varLogFile c) = true) ∧
      env.openFile (localLogFile c) = false ∧
      (createLogger env addr c).1 = varLogCalls env c ++ [.OpenFile (localLogFile c) false] ∧
      (createLogger env addr c).2 = .error (.fatal (localLogFile c))) := by
  rw [createLogger_eq env addr c hc, createLogger_logFile_eq, createLocalLog_eq]
  by_cases h1 : varLogAttempted env = true ∧ env.openFile (varLogFile c) = true
  · left
    rw [if_pos h1]
    exact ⟨h1.1, h1.2, rfl, _, rfl, rfl⟩
  · right
    rw [if_neg h1]
    cases hl : env.openFile (localLogFile c)
    · right
      simp [Sys.after, h1]
    · left
      simp [Sys.after, h1]

/-! ## Claims about the choice of the log file -/

/-- C5: for the log types `access` and `error` and every answer of the operating
system, the file of a logger returned by `createLogger` is: on GOOS `windows`
or `darwin` the local file `DMRHub.<c>.log`, the only call made being the open
of that file; on any other GOOS the file `/var/log/DMRHub/DMRHub.<c>.log`
exactly when its open succeeded, that open being attempted exactly when
`os.Stat` did not report the directory missing or `Mkdir` and `Chown` both
succeeded; and the local file in every other case. -/
theorem createLogger_file (env : Env) (addr : Nat) (c : LogType) (l : Logger)
    (hc : c = Access ∨ c = Error)
    (h : (createLogger env addr c).2 = .ok l) :
    ((env.GOOS = "windows" ∨ env.GOOS = "darwin") →
      l.file.name = localLogFile c ∧
      (createLogger env addr c).1 = [.OpenFile (localLogFile c) true]) ∧
    (¬ (env.GOOS = "windows" ∨ env.GOOS = "darwin") →
      ((∃ ok, FsCall.OpenFile (varLogFile c) ok ∈ (createLogger env addr c).1) ↔
        (env.stat ≠ .notExist ∨ (env.mkdir = true ∧ env.chown = true))) ∧
      (l.file.name = varLogFile c ↔
        FsCall.OpenFile (varLogFile c) true ∈ (createLogger env addr c).1) ∧
      (l.file.name = varLogFile c ↔
        (env.openFile (varLogFile c) = true ∧
          (env.stat ≠ .notExist ∨ (env.mkdir = true ∧ env.chown = true)))) ∧
      (l.file.name ≠ varLogFile c → l.file.name = localLogFile c)) := by
  have hne := varLogFile_ne_localLogFile c hc
  have hmem := OpenFile_mem_varLogCalls env c
  have hdesk := varLogCalls_desktop env c
  have hatt : varLogAttempted env = true ↔
      (¬ (env.GOOS = "windows" ∨ env.GOOS = "darwin") ∧
        (env.stat ≠ .notExist ∨ (env.mkdir = true ∧ env.chown = true))) := by
    simp [varLogAttempted]
  rcases createLogger_cases env addr c hc with
    ⟨ha, hv, h1, l1, h2, hf⟩ | ⟨hna, hl, h1, l1, h2, hf⟩ | ⟨hna, hl, h1, h2⟩
  · rw [h2] at h
    obtain rfl : l1 = l := by simpa using h
    rw [h1, hf]
    have ha2 := hatt.1 ha
    refine ⟨fun hg => absurd hg ha2.1, fun _ => ⟨?_, ?_, ?_, ?_⟩⟩
    · simp [hmem, ha, ha2.2]
    · simp [hmem, ha, hv, File.opened]
    · simp [hv, ha2.2, File.opened]
    · simp [File.opened]
  · rw [h2] at h
    obtain rfl : l1 = l := by simpa using h
    rw [h1, hf]
    refine ⟨fun hg => ?_, fun hg => ⟨?_, ?_, ?_, ?_⟩⟩
    · simp [hdesk hg, File.opened]
    · simp only [List.mem_append, hmem, List.mem_singleton, FsCall.OpenFile.injEq, hne,
        false_and, exists_false, or_false]
      simp [hatt, hg]
    · simp only [List.mem_append, hmem, List.mem_singleton, FsCall.OpenFile.injEq, hne,
        false_and, or_false, File.opened, Ne.symm hne, false_iff]
      intro hx
      exact hna ⟨hx.2.2, hx.2.1.symm⟩
    · simp only [File.opened, Ne.symm hne, false_iff]
      intro hx
      exact hna ⟨hatt.2 ⟨hg, hx.2⟩, hx.1⟩
    · simp [File.opened]
  · rw [h2] at h
    simp at h

/-- The witness of C5: on a Linux host where `/var/log/DMRHub` is missing and
`Mkdir` fails, the access logger writes to `DMRHub.access.log`. -/
theorem createLogger_file_witness :
    (createLogger linuxNoVarLog 0 Access).2 = .ok localAccessLogger ∧
      localAccessLogger.file.name = localLogFile Access :=
  ⟨rfl, ((createLogger_file linuxNoVarLog 0 Access localAccessLogger (Or.inl rfl) rfl).2
    (by decide)).2.2.2 (by decide)⟩

/-- C6: for the log types `access` and `error`, `createLogger` ends the process
exactly when the open of the local file `DMRHub.<c>.log` was attempted and
failed, and then through `log.Fatalf` naming that file; when the local file can
be opened a logger is returned whatever `Stat`, `Mkdir`, `Chown` and the open of
the file under `/var/log/DMRHub` answer; a returned logger holds an open handle
that a successful `OpenFile` produced; and the only fault `GetLogger` passes on
for these log types is that `log.Fatalf`. -/
theorem createLogger_fatal (env : Env) (addr : Nat) (c : LogType)
    (hc : c = Access ∨ c = Error) :
    ((∃ f, (createLogger env addr c).2 = .error f) ↔
      FsCall.OpenFile (localLogFile c) false ∈ (createLogger env addr c).1) ∧
    (FsCall.OpenFile (localLogFile c) false ∈ (createLogger env addr c).1 →
      (createLogger env addr c).2 = .error (.fatal (localLogFile c))) ∧
    (env.openFile (localLogFile c) = true → ∃ l, (createLogger env addr c).2 = .ok l) ∧
    (∀ l, (createLogger env addr c).2 = .ok l →
      l.file.closed = false ∧ FsCall.OpenFile l.file.name true ∈ (createLogger env addr c).1) ∧
    (∀ r f, (GetLogger env c r).2 = .error f →
      f = .fatal (localLogFile c) ∧ env.openFile (localLogFile c) = false) := by
  have hne := varLogFile_ne_localLogFile c hc
  have hAE : Error ≠ Access := by decide
  have hmem := OpenFile_mem_varLogCalls env c
  have key : ∀ n f, (createLogger env n c).2 = .error f →
      f = .fatal (localLogFile c) ∧ env.openFile (localLogFile c) = false := by
    intro n f hf
    rcases createLogger_cases env n c hc with
      ⟨-, -, -, l1, h2, -⟩ | ⟨-, -, -, l1, h2, -⟩ | ⟨-, hl, -, h2⟩
    · rw [h2] at hf; simp at hf
    · rw [h2] at hf; simp at hf
    · rw [h2] at hf; simp at hf; exact ⟨hf.symm, hl⟩
  refine ⟨?_, ?_, ?_, ?_, ?_⟩
  · rcases createLogger_cases env addr c hc with
      ⟨ha, hv, h1, l1, h2, hf⟩ | ⟨hna, hl, h1, l1, h2, hf⟩ | ⟨hna, hl, h1, h2⟩
    · simp [h1, h2, hmem, Ne.symm hne]
    · simp [h1, h2, hmem, Ne.symm hne]
    · simp [h1, h2]
  · rcases createLogger_cases env addr c hc with
      ⟨ha, hv, h1, l1, h2, hf⟩ | ⟨hna, hl, h1, l1, h2, hf⟩ | ⟨hna, hl, h1, h2⟩
    · simp [h1, h2, hmem, Ne.symm hne]
    · simp [h1, h2, hmem, Ne.symm hne]
    · simp [h1, h2]
  · intro hl
    rcases createLogger_cases env addr c hc with
      ⟨-, -, -, l1, h2, -⟩ | ⟨-, -, -, l1, h2, -⟩ | ⟨-, hl2, -, -⟩
    · exact ⟨l1, h2⟩
    · exact ⟨l1, h2⟩
    · rw [hl] at hl2; cases hl2
  · intro l h
    rcases createLogger_cases env addr c hc with
      ⟨ha, hv, h1, l1, h2, hf⟩ | ⟨hna, hl, h1, l1, h2, hf⟩ | ⟨hna, hl, h1, h2⟩
    · rw [h2] at h
      obtain rfl : l1 = l := by simpa using h
      simp [h1, hf, hmem, File.opened, ha, hv]
    · rw [h2] at h
      obtain rfl : l1 = l := by simpa using h
      simp [h1, hf, File.opened]
    · rw [h2] at h; simp at h
  · intro r f
    unfold GetLogger Registry.createAccess Registry.createError
    rcases hc with rfl | rfl
    · rcases r.accessLog with _ | a
      · have k := key r.allocs f
        rcases hx : createLogger env r.allocs Access with ⟨cs, e | l⟩
        · simp only [hx] at k ⊢; simpa using k
        · simp
      · simp
    · rcases r.errorLog with _ | a
      · have k := key r.allocs f
        rcases hx : createLogger env r.allocs Error with ⟨cs, e | l⟩
        · simp only [hx] at k ⊢; simpa [hAE] using k
        · simp [hAE]
      · simp [hAE]

/-- The witness of C6: on a host where no file can be opened, creating the
access logger ends in `log.Fatalf` for `DMRHub.access.log`. -/
theorem createLogger_fatal_witness :
    (createLogger { linuxEnv with openFile := fun _ => false } 0 Access).2 =
      .error (.fatal (localLogFile Access)) :=
  (createLogger_fatal { linuxEnv with openFile := fun _ => false } 0 Access (Or.inl rfl)).2.1
    (by decide)

/-! ## Fields that no step changes -/

theorem multiWrite_frame (w : WriteEnv) (line : String) :
    ∀ (ds : List Dest) (l : Logger),
      (l.multiWrite w line ds).logger = l.logger ∧
        (l.multiWrite w line ds).Writer = l.Writer ∧
        (l.multiWrite w line ds).addr = l.addr
  | [], l => by simp [Logger.multiWrite]
  | d :: ds, l => by
    unfold Logger.multiWrite
    cases d with
    | stderr =>
      simp only [Logger.write]
      cases w.stderr
      · simp
      · exact multiWrite_frame w line ds _
    | file =>
      simp only [Logger.write, File.Write]
      cases l.file.closed
      · cases w.file
        · simp
        · exact multiWrite_frame w line ds _
      · simp

theorem step_frame {α : Type} (Sprintf : String → List α → String) (l l1 : Logger)
    (a : Action α) (hs : step Sprintf l a = some l1) :
    l1.logger = l.logger ∧ l1.Writer = l.Writer ∧ l1.addr = l.addr := by
  cases a with
  | Log function format =>
    simp only [step, Logger.Log, Logger.enqueue, Chan.send] at hs
    split_ifs at hs
    simp at hs
    subst hs; simp
  | Logf function format args =>
    simp only [step, Logger.Logf, Logger.enqueue, Chan.send] at hs
    split_ifs at hs
    simp at hs
    subst hs; simp
  | Relay w =>
    simp only [step, Logger.Relay, Chan.recv] at hs
    by_cases hr : l.relay = .running
    swap
    · simp [hr] at hs
    rw [if_pos hr] at hs
    rcases hb : l.channel.buf with _ | ⟨m, rest⟩
    · simp only [hb] at hs
      cases hcl : l.channel.closed <;> simp [hcl] at hs
      subst hs; simp
    · simp only [hb] at hs
      simp at hs
      subst hs
      exact multiWrite_frame w m _ _
  | closeChannel =>
    simp only [step, Chan.close] at hs
    split_ifs at hs
    simp at hs
    subst hs; simp
  | closeFile =>
    simp only [step] at hs
    simp at hs
    subst hs; simp

theorem run_frame {α : Type} (Sprintf : String → List α → String) :
    ∀ (acts : List (Action α)) (l l1 : Logger), run Sprintf l acts = some l1 →
      l1.logger = l.logger ∧ l1.Writer = l.Writer ∧ l1.addr = l.addr
  | [], l, l1, hr => by simp [run] at hr; subst hr; simp
  | a :: as, l, l1, hr => by
    simp only [run] at hr
    split at hr
    · simp at hr
    · next l2 hx =>
      have h1 := step_frame Sprintf l l2 a hx
      have h2 := run_frame Sprintf as l2 l1 hr
      exact ⟨h2.1.trans h1.1, h2.2.1.trans h1.2.1, h2.2.2.trans h1.2.2⟩

/-! ## Claims about one logger -/

/-- C8 as stated fails on the code: the error logger of a Linux host takes a
line from the channel and passes it to `Print` while the operating system
refuses the write on the open log file; the line is on standard error and not
in the file. -/
theorem error_line_not_in_file :
    ∃ calls l0 l, createLogger linuxEnv 0 Error = (calls, .ok l0) ∧
      run verbatim l0 [.Log startFunc "boom", .Relay { stderr := true, file := false }] =
        some l ∧
      l.printed = ["internal/http.Start: boom"] ∧
      l.stderr = ["internal/http.Start: boom"] ∧
      l.file.closed = false ∧ l.file.lines = [] :=
  ⟨_, _, _, rfl, rfl, rfl, rfl, rfl, rfl⟩

/-- C8, amended: in every state of a logger that `createLogger` built, the
output of the `log.Logger` is standard error followed by the file for log type
`error` and the file alone for log type `access`.  A `Print` offers the line to
these writers in that order and drops a failed write: for `error` the line is
appended to standard error when that write succeeds and then to the file when
the handle is open and that write succeeds too, and a failed write on standard
error leaves the file as it is; for `access` the line is appended to the file
when the handle is open and the write succeeds, and standard error stays empty.
So every line in the error file is on standard error as well, and the lines of
both are lines that were passed to `Print`, in the same order. -/
theorem createLogger_destinations {α : Type} (Sprintf : String → List α → String)
    (env : Env) (addr : Nat) (c : LogType) (calls : List FsCall) (l0 l : Logger)
    (acts : List (Action α))
    (h0 : createLogger env addr c = (calls, .ok l0))
    (hr : run Sprintf l0 acts = some l) :
    (c = Error → l.logger = [.stderr, .file] ∧ l.Writer = [.stderr, .file] ∧
      l.file.lines.Sublist l.stderr ∧ l.stderr.Sublist l.printed ∧
      ∀ w msg,
        (l.Print w msg).printed = l.printed ++ [msg] ∧
        (w.stderr = true → (l.Print w msg).stderr = l.stderr ++ [msg]) ∧
        (w.stderr = true → w.file = true → l.file.closed = false →
          (l.Print w msg).file.lines = l.file.lines ++ [msg]) ∧
        (w.stderr = false →
          (l.Print w msg).stderr = l.stderr ∧ (l.Print w msg).file = l.file) ∧
        (w.file = false → (l.Print w msg).file = l.file)) ∧
    (c = Access → l.logger = [.file] ∧ l.Writer = [.file] ∧
      l.stderr = [] ∧ l.file.lines.Sublist l.printed ∧
      ∀ w msg,
        (l.Print w msg).printed = l.printed ++ [msg] ∧
        (l.Print w msg).stderr = [] ∧
        (w.file = true → l.file.closed = false →
          (l.Print w msg).file.lines = l.file.lines ++ [msg]) ∧
        (w.file = false → (l.Print w msg).file = l.file)) := by
  have hinv := Inv_run Sprintf acts l0 l (Inv_createLogger env addr c calls l0 h0) hr
  obtain ⟨-, -, -, -, hlog, hW, -⟩ := createLogger_ok env addr c calls l0 h0
  obtain ⟨f1, f2, -⟩ := run_frame Sprintf acts l0 l hr
  have hne : Error ≠ Access := by decide
  constructor
  · intro hc
    subst hc
    have e1 : l.logger = [.stderr, .file] := by rw [f1, hlog]; simp [hne]
    have e2 : l.Writer = [.stderr, .file] := by rw [f2, hW, hlog]; simp [hne]
    refine ⟨e1, e2, hinv.fileErr e1, hinv.errSub, ?_⟩
    intro w msg
    rw [Print_stderr_file w l msg e1]
    cases hs : w.stderr
    · rw [if_neg (by simp)]
      refine ⟨rfl, ?_, ?_, ?_, ?_⟩
      · intro hx; cases hx
      · intro hx; cases hx
      · intro _; exact ⟨rfl, rfl⟩
      · intro _; rfl
    · rw [if_pos rfl]
      refine ⟨rfl, ?_, ?_, ?_, ?_⟩
      · intro _; rfl
      · intro _ hf hcl
        simp [File.offer, hf, hcl]
      · intro hx; cases hx
      · intro hx
        simp [File.offer, hx]
  · intro hc
    subst hc
    have e1 : l.logger = [.file] := by rw [f1, hlog]; simp
    have e2 : l.Writer = [.file] := by rw [f2, hW, hlog]; simp
    refine ⟨e1, e2, hinv.noerrs e1, hinv.fileSub, ?_⟩
    intro w msg
    rw [Print_file w l msg e1]
    refine ⟨rfl, hinv.noerrs e1, ?_, ?_⟩
    · intro hf hcl
      simp [File.offer, hf, hcl]
    · intro hx
      simp [File.offer, hx]

/-- The witness of C8: the error logger after one logged line whose writes
succeeded has the line on standard error and in the file. -/
theorem createLogger_destinations_witness :
    errorLoggerAfterBoom.logger = [.stderr, .file] ∧
      errorLoggerAfterBoom.file.lines.Sublist errorLoggerAfterBoom.stderr ∧
      errorLoggerAfterBoom.stderr = ["internal/http.Start: boom"] ∧
      errorLoggerAfterBoom.file.lines = ["internal/http.Start: boom"] :=
  ⟨((createLogger_destinations verbatim linuxEnv 0 Error _ _ errorLoggerAfterBoom
      [.Log startFunc "boom", .Relay { stderr := true, file := true }] rfl rfl).1 rfl).1,
    ((createLogger_destinations verbatim linuxEnv 0 Error _ _ errorLoggerAfterBoom
      [.Log startFunc "boom", .Relay { stderr := true, file := true }] rfl rfl).1 rfl).2.2.1,
    rfl, rfl⟩

/-- C4: in every reachable state of a logger, the lines passed to `Print`
followed by the lines pending in the channel are the lines enqueued, in the
order of the enqueues; so the lines passed to `Print` are an initial part of the
lines enqueued, and a line enqueued after another is never passed to `Print`
before it.  The lines in the file and the lines on standard error are lines that
were passed to `Print`, in the same order (a line whose write failed is not
among them). -/
theorem Relay_order {α : Type} (Sprintf : String → List α → String) (l : Logger)
    (h : Reachable Sprintf l) :
    l.printed ++ l.channel.buf = l.enqueued ∧
    l.printed <+: l.enqueued ∧
    (∀ (i j : Nat) (m1 m2 : String), i < j → l.enqueued[i]? = some m1 → l.enqueued[j]? = some m2 →
      l.printed[j]? = some m2 → l.printed[i]? = some m1) ∧
    l.file.lines.Sublist l.printed ∧
    l.stderr.Sublist l.printed := by
  have hinv := Inv_of_Reachable Sprintf l h
  refine ⟨hinv.order, ⟨l.channel.buf, hinv.order⟩, ?_, hinv.fileSub, hinv.errSub⟩
  intro i j m1 m2 hij h1 _ h3
  have hj : j < l.printed.length := by
    rcases Nat.lt_or_ge j l.printed.length with hj | hj
    · exact hj
    · rw [List.getElem?_eq_none hj] at h3; cases h3
  have hi : i < l.printed.length := Nat.lt_trans hij hj
  rw [← hinv.order, List.getElem?_append_left hi] at h1
  exact h1

/-- The witness of C4: the access logger after two enqueues and one iteration of
`Relay`. -/
theorem Relay_order_witness :
    accessLoggerAfterTwo.printed ++ accessLoggerAfterTwo.channel.buf =
      accessLoggerAfterTwo.enqueued :=
  (Relay_order verbatim accessLoggerAfterTwo
    ⟨linuxEnv, 0, Access, _, _,
      [.Log startFunc "GET /", .Log startFunc "GET /",
        .Relay { stderr := true, file := true }],
      rfl, rfl⟩).1

/-! ## Sends -/

/-- A send completes exactly on an open channel with room, and then appends the
line to the buffer and changes nothing else. -/
theorem enqueue_done_iff (l l1 : Logger) (line : String) :
    l.enqueue line = .done l1 ↔
      (l.channel.closed = false ∧ l.channel.buf.length < l.channel.cap ∧
        l1 = { l with channel := { l.channel with buf := l.channel.buf ++ [line] },
                      enqueued := l.enqueued ++ [line] }) := by
  unfold Logger.enqueue Chan.send
  by_cases hc : l.channel.closed = true
  · simp [hc]
  · by_cases hlt : l.channel.buf.length < l.channel.cap
    · rw [if_neg hc, if_pos hlt]
      constructor
      · intro h
        injection h with h
        exact ⟨by simpa using hc, hlt, h.symm⟩
      · rintro ⟨-, -, rfl⟩
        rfl
    · simp [hc, hlt]

/-- A send blocks exactly on an open channel without room. -/
theorem enqueue_blocked_iff (l : Logger) (line : String) :
    l.enqueue line = .blocked ↔
      (l.channel.closed = false ∧ l.channel.cap ≤ l.channel.buf.length) := by
  unfold Logger.enqueue Chan.send
  cases hc : l.channel.closed
  · by_cases hlt : l.channel.buf.length < l.channel.cap
    · simp [hlt]
    · simp [hlt, Nat.le_of_not_lt hlt]
  · simp

theorem replicate_send_run :
    ∀ (n : Nat) (l : Logger), l.channel.closed = false → l.channel.buf.length + n ≤ l.channel.cap →
      run verbatim l (List.replicate n (Action.Log startFunc "GET /")) =
        some { l with
          channel := { l.channel with
            buf := l.channel.buf ++ List.replicate n "internal/http.Start: GET /" },
          enqueued := l.enqueued ++ List.replicate n "internal/http.Start: GET /" }
  | 0, l, _, _ => by simp [run]
  | n + 1, l, hc, hb => by
    have hlt : l.channel.buf.length < l.channel.cap := by omega
    have hline : getFunctionName startFunc ++ ": " ++ "GET /" = "internal/http.Start: GET /" := by
      decide
    have hs : step verbatim l (Action.Log startFunc "GET /") =
        some { l with channel := { l.channel with
                        buf := l.channel.buf ++ ["internal/http.Start: GET /"] },
                      enqueued := l.enqueued ++ ["internal/http.Start: GET /"] } := by
      simp only [step, Logger.Log, hline]
      rw [(enqueue_done_iff l _ _).2 ⟨hc, hlt, rfl⟩]
    rw [List.replicate_succ, run, hs]
    simp only
    have ih := replicate_send_run n
      { l with channel := { l.channel with
                 buf := l.channel.buf ++ ["internal/http.Start: GET /"] },
               enqueued := l.enqueued ++ ["internal/http.Start: GET /"] } hc
      (by simp; omega)
    rw [ih]
    simp [List.replicate_succ, List.append_assoc]

/-- The logger `fullAccessLogger` is reachable: 200 calls of `Log` on a new
access logger. -/
theorem fullAccessLogger_reachable : Reachable verbatim fullAccessLogger := by
  refine ⟨linuxEnv, 0, Access, _, _, List.replicate 200 (Action.Log startFunc "GET /"), rfl, ?_⟩
  rw [replicate_send_run 200 _ rfl (by decide)]
  rfl

/-- From a state whose channel is full, a run without an iteration of `Relay`
leaves the buffer and the list of enqueued lines as they are: no send in it
completes. -/
theorem run_full_without_Relay {α : Type} (Sprintf : String → List α → String) :
    ∀ (acts : List (Action α)) (l l1 : Logger), l.channel.cap ≤ l.channel.buf.length →
      (∀ a ∈ acts, ∀ w, a ≠ Action.Relay w) → run Sprintf l acts = some l1 →
      l1.channel.buf = l.channel.buf ∧ l1.enqueued = l.enqueued
  | [], l, l1, _, _, hr => by simp [run] at hr; subst hr; simp
  | a :: as, l, l1, hfull, hno, hr => by
    simp only [run] at hr
    split at hr
    · simp at hr
    · next l2 hx =>
      have hno2 : ∀ b ∈ as, ∀ w, b ≠ Action.Relay w :=
        fun b hb => hno b (List.mem_cons_of_mem a hb)
      have hstep : l2.channel.buf = l.channel.buf ∧ l2.enqueued = l.enqueued ∧
          l2.channel.cap = l.channel.cap := by
        cases a with
        | Log function format =>
          simp only [step, Logger.Log] at hx
          split at hx
          · next l3 hd =>
            have := ((enqueue_done_iff l l3 _).1 hd).2.1
            omega
          · simp at hx
        | Logf function format args =>
          simp only [step, Logger.Logf] at hx
          split at hx
          · next l3 hd =>
            have := ((enqueue_done_iff l l3 _).1 hd).2.1
            omega
          · simp at hx
        | Relay w => exact absurd rfl (hno _ (List.mem_cons_self _ _) w)
        | closeChannel =>
          simp only [step, Chan.close] at hx
          split_ifs at hx
          simp at hx
          subst hx; simp
        | closeFile =>
          simp only [step] at hx
          simp at hx
          subst hx; simp
      have ih := run_full_without_Relay Sprintf as l2 l1
        (by rw [hstep.1, hstep.2.2]; exact hfull) hno2 hr
      exact ⟨ih.1.trans hstep.1, ih.2.trans hstep.2.1⟩

/-- C7: in every reachable state of a logger the channel has capacity 200 and
holds at most 200 lines; when it holds 200 lines no `Log` or `Logf` completes
(on an open channel the call blocks), the buffer and the enqueued lines stay as
they are along every run without an iteration of `Relay`, and after one
iteration of `Relay`, which takes one line out whatever the answers to its
writes, a `Log` on the open channel completes; and a `Log` or `Logf` that
completes has appended exactly its one line at the end of the buffer. -/
theorem Log_full_channel {α : Type} (Sprintf : String → List α → String) (l : Logger)
    (h : Reachable Sprintf l) :
    l.channel.cap = 200 ∧ l.channel.buf.length ≤ 200 ∧
    (l.channel.buf.length = 200 → ∀ function format args l1,
      l.Log function format ≠ .done l1 ∧ l.Logf Sprintf function format args ≠ .done l1) ∧
    (l.channel.buf.length = 200 → l.channel.closed = false → ∀ function format args,
      l.Log function format = .blocked ∧ l.Logf Sprintf function format args = .blocked) ∧
    (l.channel.buf.length = 200 → ∀ acts l1, (∀ a ∈ acts, ∀ w, a ≠ Action.Relay w) →
      run Sprintf l acts = some l1 →
      l1.channel.buf = l.channel.buf ∧ l1.enqueued = l.enqueued) ∧
    (l.channel.buf.length = 200 → ∀ w, ∃ l1, step Sprintf l (Action.Relay w) = some l1 ∧
      l1.channel.buf.length = 199 ∧
      (l.channel.closed = false → ∀ function format, ∃ l2, l1.Log function format = .done l2)) ∧
    (∀ function format l1, l.Log function format = .done l1 →
      l1.channel.buf = l.channel.buf ++ [getFunctionName function ++ ": " ++ format] ∧
      l1.enqueued = l.enqueued ++ [getFunctionName function ++ ": " ++ format]) ∧
    (∀ function format args l1, l.Logf Sprintf function format args = .done l1 →
      l1.channel.buf =
        l.channel.buf ++ [getFunctionName function ++ ": " ++ Sprintf format args] ∧
      l1.enqueued =
        l.enqueued ++ [getFunctionName function ++ ": " ++ Sprintf format args]) := by
  have hinv := Inv_of_Reachable Sprintf l h
  have hcap := hinv.cap
  refine ⟨hcap, hinv.bound, ?_, ?_, ?_, ?_, ?_, ?_⟩
  · intro hfull function format args l1
    constructor
    · intro hd
      have := ((enqueue_done_iff l l1 _).1 hd).2.1
      omega
    · intro hd
      have := ((enqueue_done_iff l l1 _).1 hd).2.1
      omega
  · intro hfull hopen function format args
    exact ⟨(enqueue_blocked_iff l _).2 ⟨hopen, by omega⟩,
      (enqueue_blocked_iff l _).2 ⟨hopen, by omega⟩⟩
  · intro hfull acts l1 hno hr
    exact run_full_without_Relay Sprintf acts l l1 (by omega) hno hr
  · intro hfull w
    have hrun : l.relay = .running := by
      cases hrl : l.relay
      · rfl
      · have := (hinv.live hrl).1
        rw [this] at hfull
        simp at hfull
    rcases hb : l.channel.buf with _ | ⟨m, rest⟩
    · rw [hb] at hfull; simp at hfull
    · have hlen : rest.length = 199 := by rw [hb] at hfull; simpa using hfull
      have hP : (Logger.Print w { l with channel := { l.channel with buf := rest } } m).channel =
          { l.channel with buf := rest } := by
        rcases hinv.dests with hd | hd
        · rw [Print_file w { l with channel := { l.channel with buf := rest } } m hd]
        · rw [Print_stderr_file w { l with channel := { l.channel with buf := rest } } m hd]
          split_ifs <;> rfl
      refine ⟨Logger.Print w { l with channel := { l.channel with buf := rest } } m, ?_, ?_, ?_⟩
      · simp [step, hrun, Logger.Relay, Chan.recv, hb]
      · rw [hP]; exact hlen
      · intro hopen function format
        refine ⟨_, (enqueue_done_iff _ _ _).2 ⟨?_, ?_, rfl⟩⟩
        · rw [hP]; exact hopen
        · rw [hP]
          show rest.length < l.channel.cap
          omega
  · intro function format l1 hd
    have := ((enqueue_done_iff l l1 _).1 hd).2.2
    subst this
    exact ⟨rfl, rfl⟩
  · intro function format args l1 hd
    have := ((enqueue_done_iff l l1 _).1 hd).2.2
    subst this
    exact ⟨rfl, rfl⟩

/-- The witness of C7: a `Log` on the access logger with 200 pending lines
blocks. -/
theorem Log_full_channel_witness :
    fullAccessLogger.Log startFunc "GET /" = .blocked :=
  ((Log_full_channel verbatim fullAccessLogger fullAccessLogger_reachable).2.2.2.1
    (List.length_replicate 200 _) rfl startFunc "GET /" []).1

/-! ## `strings.TrimPrefix` -/

theorem TrimPrefix_append (pfx rest : String) : TrimPrefix (pfx ++ rest) pfx = rest := by
  unfold TrimPrefix
  have h : pfx.data.isPrefixOf (pfx ++ rest).data = true := by
    rw [String.data_append, List.isPrefixOf_iff_prefix]
    exact List.prefix_append _ _
  rw [if_pos h, String.data_append, List.drop_left]

theorem TrimPrefix_of_not_prefix (s pfx : String) (h : ¬ ∃ rest, s = pfx ++ rest) :
    TrimPrefix s pfx = s := by
  unfold TrimPrefix
  split_ifs with hp
  · exfalso
    rw [List.isPrefixOf_iff_prefix] at hp
    obtain ⟨t, ht⟩ := hp
    exact h ⟨String.mk t, String.ext (by rw [String.data_append, ht])⟩
  · rfl

/-- C9: for every function with runtime name `n`, message `s`, format and
arguments, the label `getFunctionName` is `n` without the leading
`github.com/USA-RedDragon/DMRHub/` when `n` starts with it and `n` otherwise; a
`Log` that completes has appended exactly `label ++ ": " ++ s` to the channel of
its logger and a `Logf` that completes exactly
`label ++ ": " ++ Sprintf format args`, at the end of the buffer and with
nothing else changed; and whether the call completes depends on the channel
alone, not on the label. -/
theorem Log_line {α : Type} (Sprintf : String → List α → String) (l : Logger)
    (function : Func) (s format : String) (args : List α) :
    (∀ rest, function.Name = "github.com/USA-RedDragon/DMRHub/" ++ rest →
      getFunctionName function = rest) ∧
    ((¬ ∃ rest, function.Name = "github.com/USA-RedDragon/DMRHub/" ++ rest) →
      getFunctionName function = function.Name) ∧
    (∀ l1, l.Log function s = .done l1 ↔
      (l.channel.closed = false ∧ l.channel.buf.length < l.channel.cap ∧
        l1 = { l with
          channel := { l.channel with
            buf := l.channel.buf ++ [getFunctionName function ++ ": " ++ s] },
          enqueued := l.enqueued ++ [getFunctionName function ++ ": " ++ s] })) ∧
    (∀ l1, l.Logf Sprintf function format args = .done l1 ↔
      (l.channel.closed = false ∧ l.channel.buf.length < l.channel.cap ∧
        l1 = { l with
          channel := { l.channel with
            buf := l.channel.buf ++
              [getFunctionName function ++ ": " ++ Sprintf format args] },
          enqueued := l.enqueued ++
            [getFunctionName function ++ ": " ++ Sprintf format args] })) := by
  refine ⟨?_, ?_, ?_, ?_⟩
  · intro rest h
    unfold getFunctionName
    rw [h, TrimPrefix_append]
  · intro h
    exact TrimPrefix_of_not_prefix _ _ h
  · intro l1
    exact enqueue_done_iff l l1 _
  · intro l1
    exact enqueue_done_iff l l1 _

/-! ## Sequences of calls of `GetLogger` -/

theorem countP_opens_varLogCalls (env : Env) (c c1 : LogType) :
    filesOpened c (varLogCalls env c1) =
      if varLogAttempted env = true ∧ env.openFile (varLogFile c1) = true ∧
          (varLogFile c1 = varLogFile c ∨ varLogFile c1 = localLogFile c) then 1 else 0 := by
  unfold filesOpened varLogCalls
  by_cases hg : (env.GOOS = "windows" || env.GOOS = "darwin") = true
  · simp [hg, varLogAttempted]
  · cases ha : varLogAttempted env <;> cases hs : env.stat <;> cases hm : env.mkdir <;>
    cases hv : env.openFile (varLogFile c1) <;>
    simp [hg, ha, hs, hm, hv, List.countP_cons, FsCall.opens]

/-- Files opened by one run of `createLogger`: one file of its own log type when
it returns a logger, none when it faults, and never a file of the other log
type. -/
theorem filesOpened_createLogger (env : Env) (addr : Nat) (c c1 : LogType)
    (hc : c = Access ∨ c = Error) (hc1 : c1 = Access ∨ c1 = Error) :
    (c ≠ c1 → filesOpened c (createLogger env addr c1).1 = 0) ∧
    (c = c1 → ∀ l, (createLogger env addr c1).2 = .ok l →
      filesOpened c (createLogger env addr c1).1 = 1) ∧
    (c = c1 → ∀ e, (createLogger env addr c1).2 = .error e →
      filesOpened c (createLogger env addr c1).1 = 0) := by
  have hvv : (varLogFile c1 = varLogFile c ∨ varLogFile c1 = localLogFile c) ↔ c = c1 := by
    rcases hc with rfl | rfl <;> rcases hc1 with rfl | rfl <;> decide
  have hlv : (localLogFile c1 = varLogFile c ∨ localLogFile c1 = localLogFile c) ↔ c = c1 := by
    rcases hc with rfl | rfl <;> rcases hc1 with rfl | rfl <;> decide
  have hcnt := countP_opens_varLogCalls env c c1
  simp only [hvv] at hcnt
  rcases createLogger_cases env addr c1 hc1 with
    ⟨ha, hv, h1, l1, h2, hf⟩ | ⟨hna, hl, h1, l1, h2, hf⟩ | ⟨hna, hl, h1, h2⟩
  · rw [h1, hcnt, h2]
    simp [ha, hv]
  · rw [h1, h2]
    unfold filesOpened at hcnt ⊢
    rw [List.countP_append, hcnt]
    have hna2 : ¬ (varLogAttempted env = true ∧ env.openFile (varLogFile c1) = true ∧ c = c1) :=
      fun hx => hna ⟨hx.1, hx.2.1⟩
    rw [if_neg hna2]
    by_cases hcc : c = c1
    · simp [List.countP_cons, FsCall.opens, hlv, hcc]
    · simp [List.countP_cons, FsCall.opens, hlv, hcc]
  · rw [h1, h2]
    unfold filesOpened at hcnt ⊢
    rw [List.countP_append, hcnt]
    have hna2 : ¬ (varLogAttempted env = true ∧ env.openFile (varLogFile c1) = true ∧ c = c1) :=
      fun hx => hna ⟨hx.1, hx.2.1⟩
    rw [if_neg hna2]
    simp [List.countP_cons, FsCall.opens]

theorem RegInv_init : RegInv Registry.init := by
  intro c hc
  rcases hc with rfl | rfl <;> simp [Registry.init, filesOpened, Registry.lookup]

/-- A call of `GetLogger` for a log type whose variable is set returns the
variable and changes nothing. -/
theorem GetLogger_hit (env : Env) (c : LogType) (r : Registry) (l : Logger)
    (hc : c = Access ∨ c = Error) (h : r.lookup c = some l) :
    GetLogger env c r = (r, .ok l.addr) := by
  have hne : Error ≠ Access := by decide
  rcases hc with rfl | rfl
  · simp only [Registry.lookup, if_true] at h
    simp [GetLogger, h]
  · simp only [Registry.lookup, hne, if_false, if_true] at h
    simp [GetLogger, hne, h]

/-- A call of `GetLogger` for a log type whose variable is nil runs
`createLogger` once, at the next free address, and stores the logger it
returns. -/
theorem GetLogger_miss (env : Env) (c : LogType) (r : Registry)
    (hc : c = Access ∨ c = Error) (h : r.lookup c = none) :
    (GetLogger env c r).1.created = r.created ++ [c] ∧
    (GetLogger env c r).1.calls = r.calls ++ (createLogger env r.allocs c).1 ∧
    (∀ c1, c1 ≠ c → (GetLogger env c r).1.lookup c1 = r.lookup c1) ∧
    (∀ e, (createLogger env r.allocs c).2 = .error e →
      (GetLogger env c r).2 = .error e ∧ (GetLogger env c r).1.lookup c = none) ∧
    (∀ l, (createLogger env r.allocs c).2 = .ok l →
      (GetLogger env c r).2 = .ok l.addr ∧ (GetLogger env c r).1.lookup c = some l) := by
  have hne : Error ≠ Access := by decide
  rcases hc with rfl | rfl
  · simp only [Registry.lookup, if_true] at h
    simp only [GetLogger, if_true, h, Registry.createAccess]
    rcases hx : createLogger env r.allocs Access with ⟨cs, e | l⟩
    · refine ⟨rfl, rfl, ?_, ?_, ?_⟩
      · intro c1 h1; simp [Registry.lookup, h1]
      · intro e1 he; simp at he; subst he; simp [Registry.lookup, h]
      · intro l1 hl; simp at hl
    · refine ⟨rfl, rfl, ?_, ?_, ?_⟩
      · intro c1 h1; simp [Registry.lookup, h1]
      · intro e1 he; simp at he
      · intro l1 hl; simp at hl; subst hl; simp [Registry.lookup]
  · simp only [Registry.lookup, hne, if_false, if_true] at h
    simp only [GetLogger, hne, if_false, if_true, h, Registry.createError]
    rcases hx : createLogger env r.allocs Error with ⟨cs, e | l⟩
    · refine ⟨rfl, rfl, ?_, ?_, ?_⟩
      · intro c1 h1; simp [Registry.lookup, h1]
      · intro e1 he; simp at he; subst he; simp [Registry.lookup, h, hne]
      · intro l1 hl; simp at hl
    · refine ⟨rfl, rfl, ?_, ?_, ?_⟩
      · intro c1 h1; simp [Registry.lookup, h1]
      · intro e1 he; simp at he
      · intro l1 hl; simp at hl; subst hl; simp [Registry.lookup, hne]

/-- After a call of `GetLogger` in a registry with sound bookkeeping,
`createLogger` has run at most once and at most one file has been opened for
each log type; if the call returned, the bookkeeping is sound again. -/
theorem GetLogger_RegInv (env : Env) (c : LogType) (r : Registry)
    (hc : c = Access ∨ c = Error) (hr : RegInv r) :
    (∀ c1, c1 = Access ∨ c1 = Error →
      (GetLogger env c r).1.created.count c1 ≤ 1 ∧
      filesOpened c1 (GetLogger env c r).1.calls ≤ 1) ∧
    (∀ p, (GetLogger env c r).2 = .ok p → RegInv (GetLogger env c r).1) := by
  have bound : ∀ c1, c1 = Access ∨ c1 = Error →
      r.created.count c1 ≤ 1 ∧ filesOpened c1 r.calls ≤ 1 := by
    intro c1 hc1
    obtain ⟨h1, h2⟩ := hr c1 hc1
    rw [h1, h2]
    split_ifs <;> simp
  rcases hlk : r.lookup c with _ | l
  · obtain ⟨g1, g2, g3, g4, g5⟩ := GetLogger_miss env c r hc hlk
    have hcnt := hr c hc
    rw [hlk] at hcnt
    simp only [Option.isSome_none, Bool.false_eq_true, if_false] at hcnt
    constructor
    · intro c1 hc1
      obtain ⟨f1, f2, f3⟩ := filesOpened_createLogger env r.allocs c1 c hc1 hc
      rw [g1, g2, List.count_append]
      unfold filesOpened at f1 f2 f3 hcnt ⊢
      rw [List.countP_append]
      by_cases hcc : c1 = c
      · subst hcc
        rw [hcnt.1, hcnt.2]
        rcases hx : (createLogger env r.allocs c1).2 with e | l
        · rw [f3 rfl e hx]; simp
        · rw [f2 rfl l hx]; simp
      · rw [f1 hcc]
        have := bound c1 hc1
        unfold filesOpened at this
        simp [List.count_singleton, Ne.symm hcc]
        exact this
    · intro p hp c1 hc1
      rcases hx : (createLogger env r.allocs c).2 with e | l
      · rw [(g4 e hx).1] at hp; simp at hp
      · obtain ⟨f1, f2, f3⟩ := filesOpened_createLogger env r.allocs c1 c hc1 hc
        rw [g1, g2, List.count_append]
        unfold filesOpened at f1 f2 f3 hcnt ⊢
        rw [List.countP_append]
        by_cases hcc : c1 = c
        · subst hcc
          rw [hcnt.1, hcnt.2, (g5 l hx).2, f2 rfl l hx]
          simp
        · rw [f1 hcc, g3 c1 hcc]
          have := hr c1 hc1
          unfold filesOpened at this
          simp [List.count_singleton, Ne.symm hcc]
          exact this
  · rw [GetLogger_hit env c r l hc hlk]
    exact ⟨bound, fun _ _ => hr⟩

/-- The variables after a call of `GetLogger` that returned. -/
theorem GetLogger_ok (env : Env) (c : LogType) (r : Registry) (p : Nat)
    (hc : c = Access ∨ c = Error) (hres : (GetLogger env c r).2 = .ok p) :
    (∃ l, (GetLogger env c r).1.lookup c = some l ∧ l.addr = p) ∧
    (∀ c1, c1 ≠ c → (GetLogger env c r).1.lookup c1 = r.lookup c1) ∧
    (∀ l, r.lookup c = some l → (GetLogger env c r).1.lookup c = some l) := by
  rcases hlk : r.lookup c with _ | l
  · obtain ⟨-, -, g3, g4, g5⟩ := GetLogger_miss env c r hc hlk
    rcases hx : (createLogger env r.allocs c).2 with e | l
    · rw [(g4 e hx).1] at hres; simp at hres
    · obtain ⟨h1, h2⟩ := g5 l hx
      rw [h1] at hres
      simp at hres
      exact ⟨⟨l, h2, hres⟩, g3, fun l1 h => by simp at h⟩
  · rw [GetLogger_hit env c r l hc hlk] at hres ⊢
    simp at hres
    exact ⟨⟨l, hlk, hres⟩, fun _ _ => rfl, fun l1 h => by rw [hlk]; exact h⟩

/-- The state after a sequence of calls of `GetLogger` that all returned. -/
theorem GetLoggers_inv :
    ∀ (pre : List (LogType × Env)) (r0 r : Registry) (rets : List (LogType × Nat)),
      RegInv r0 → (∀ x ∈ pre, x.1 = Access ∨ x.1 = Error) →
      GetLoggers pre r0 = (r, rets) → rets.length = pre.length →
      RegInv r ∧
      (∀ c, c = Access ∨ c = Error →
        (r.lookup c = none ↔ (r0.lookup c = none ∧ c ∉ pre.map Prod.fst))) ∧
      (∀ c q, (c, q) ∈ rets → ∃ l, r.lookup c = some l ∧ l.addr = q) ∧
      (∀ c l, c = Access ∨ c = Error → r0.lookup c = some l → r.lookup c = some l)
  | [], r0, r, rets, h0, _, hrun, _ => by
    simp only [GetLoggers, Prod.mk.injEq] at hrun
    obtain ⟨rfl, rfl⟩ := hrun
    refine ⟨h0, ?_, ?_, ?_⟩
    · intro c _; simp
    · intro c q h; simp at h
    · intro c l _ h; exact h
  | (c, env) :: rest, r0, r, rets, h0, hvalid, hrun, hlen => by
    have hc : c = Access ∨ c = Error := hvalid (c, env) (List.mem_cons_self _ _)
    have hvalid2 : ∀ x ∈ rest, x.1 = Access ∨ x.1 = Error :=
      fun x hx => hvalid x (List.mem_cons_of_mem _ hx)
    simp only [GetLoggers] at hrun
    rcases hg : GetLogger env c r0 with ⟨r1, e | p⟩
    · rw [hg] at hrun
      simp only [Prod.mk.injEq] at hrun
      obtain ⟨-, rfl⟩ := hrun
      simp at hlen
    · rw [hg] at hrun
      simp only [Prod.mk.injEq] at hrun
      obtain ⟨rfl, rfl⟩ := hrun
      have hres : (GetLogger env c r0).2 = .ok p := by rw [hg]
      have hinv1 : RegInv r1 := by
        have := (GetLogger_RegInv env c r0 hc h0).2 p hres
        rwa [hg] at this
      obtain ⟨⟨l, s1, s1a⟩, s2, s3⟩ := GetLogger_ok env c r0 p hc hres
      rw [hg] at s1 s2 s3
      simp only at s1 s2 s3
      have hlen2 : (GetLoggers rest r1).2.length = rest.length := by simpa using hlen
      obtain ⟨i1, i2, i3, i4⟩ := GetLoggers_inv rest r1 _ _ hinv1 hvalid2 rfl hlen2
      refine ⟨i1, ?_, ?_, ?_⟩
      · intro c1 hc1
        rw [i2 c1 hc1]
        by_cases hcc : c1 = c
        · subst hcc
          simp [s1]
        · rw [s2 c1 hcc]
          simp [hcc]
      · intro c1 q hq
        rcases List.mem_cons.1 hq with hq | hq
        · simp only [Prod.mk.injEq] at hq
          obtain ⟨rfl, rfl⟩ := hq
          exact ⟨l, i4 c1 l hc s1, s1a⟩
        · exact i3 c1 q hq
      · intro c1 l1 hc1 h1
        by_cases hcc : c1 = c
        · subst hcc
          exact i4 c1 l1 hc1 (s3 l1 h1)
        · exact i4 c1 l1 hc1 (by rw [s2 c1 hcc]; exact h1)

/-! ## Claim about `GetLogger` -/

/-- C2: after any sequence of calls of `GetLogger` for the log types `access`
and `error` that all returned, a further call for a log type that has not been
asked for before runs `createLogger` (once, with its calls into the operating
system), and when it returns, the pointer it returns is the logger stored in the
variable, with its `Relay` goroutine running; a further call for a log type that
has been asked for before changes nothing (no run of `createLogger`, no call
into the operating system) and returns the pointer that every earlier call for
that log type returned; and after the call `createLogger` has run at most once
and at most one file has been opened for each log type. -/
theorem GetLogger_singleton (pre : List (LogType × Env)) (c : LogType) (env : Env)
    (r : Registry) (rets : List (LogType × Nat))
    (hvalid : ∀ x ∈ pre, x.1 = Access ∨ x.1 = Error) (hc : c = Access ∨ c = Error)
    (hrun : GetLoggers pre Registry.init = (r, rets)) (hlive : rets.length = pre.length) :
    (c ∉ pre.map Prod.fst →
      (GetLogger env c r).1.created = r.created ++ [c] ∧
      (GetLogger env c r).1.calls = r.calls ++ (createLogger env r.allocs c).1 ∧
      (∀ p, (GetLogger env c r).2 = .ok p →
        ∃ l, (GetLogger env c r).1.lookup c = some l ∧ l.addr = p ∧ l.relay = .running)) ∧
    (c ∈ pre.map Prod.fst →
      (GetLogger env c r).1 = r ∧
      ∃ p, (GetLogger env c r).2 = .ok p ∧ (∃ q, (c, q) ∈ rets) ∧
        ∀ q, (c, q) ∈ rets → q = p) ∧
    (∀ c1, c1 = Access ∨ c1 = Error →
      (GetLogger env c r).1.created.count c1 ≤ 1 ∧
      filesOpened c1 (GetLogger env c r).1.calls ≤ 1) := by
  obtain ⟨i1, i2, i3, -⟩ := GetLoggers_inv pre Registry.init r rets RegInv_init hvalid hrun hlive
  have hinit : Registry.init.lookup c = none := by
    rcases hc with rfl | rfl <;> simp [Registry.lookup, Registry.init]
  refine ⟨?_, ?_, (GetLogger_RegInv env c r hc i1).1⟩
  · intro hnot
    have hlk : r.lookup c = none := (i2 c hc).2 ⟨hinit, hnot⟩
    obtain ⟨g1, g2, -, g4, g5⟩ := GetLogger_miss env c r hc hlk
    refine ⟨g1, g2, ?_⟩
    intro p hp
    rcases hx : createLogger env r.allocs c with ⟨cs, e | l⟩
    · rw [(g4 e (by rw [hx])).1] at hp; simp at hp
    · obtain ⟨h1, h2⟩ := g5 l (by rw [hx])
      rw [h1] at hp
      simp at hp
      exact ⟨l, h2, hp, (createLogger_ok env r.allocs c cs l hx).2.2.2.2.2.2.2.2.2.2⟩
  · intro hmem
    have hlk : r.lookup c ≠ none := fun h => ((i2 c hc).1 h).2 hmem
    obtain ⟨l, hl⟩ := Option.ne_none_iff_exists'.1 hlk
    rw [GetLogger_hit env c r l hc hl]
    refine ⟨rfl, l.addr, rfl, ?_, ?_⟩
    · have hex : ∀ (xs : List (LogType × Env)) (r0 : Registry), c ∈ xs.map Prod.fst →
          (GetLoggers xs r0).2.length = xs.length → ∃ q, (c, q) ∈ (GetLoggers xs r0).2 := by
        intro xs
        induction xs with
        | nil => intro r0 h; simp at h
        | cons x xs ih =>
          intro r0 h hlen
          obtain ⟨c2, env2⟩ := x
          simp only [GetLoggers] at hlen ⊢
          rcases hg : GetLogger env2 c2 r0 with ⟨r1, e | p⟩
          · rw [hg] at hlen; simp at hlen
          · rw [hg] at hlen
            simp only at hlen ⊢
            simp only [List.map_cons, List.mem_cons] at h
            rcases h with h | h
            · exact ⟨p, by rw [h]; exact List.mem_cons_self _ _⟩
            · obtain ⟨q, hq⟩ := ih r1 h (by simpa using hlen)
              exact ⟨q, List.mem_cons_of_mem _ hq⟩
      have := hex pre Registry.init hmem (by rw [hrun]; exact hlive)
      rw [hrun] at this
      exact this
    · intro q hq
      obtain ⟨l2, h2, h3⟩ := i3 c q hq
      rw [hl] at h2
      simp at h2
      rw [← h3, h2]

/-- The witness of C2: the second call for `access` returns the pointer of the
first and leaves the state as it is. -/
theorem GetLogger_singleton_witness :
    (GetLogger linuxEnv Access registryAfterAccess).2 = .ok 0 ∧
      (GetLogger linuxEnv Access registryAfterAccess).1 = registryAfterAccess := by
  obtain ⟨h0, p, h1, -, h3⟩ :=
    (GetLogger_singleton [(Access, linuxEnv)] Access linuxEnv registryAfterAccess [(Access, 0)]
      (by intro x hx; simp at hx; subst hx; exact Or.inl rfl) (Or.inl rfl) rfl rfl).2.1
      (by simp)
  rw [h1, h3 0 (List.mem_singleton.2 rfl)]
  exact ⟨rfl, h0⟩

/-! ## `Close` and the goroutine `Relay` -/

theorem multiWrite_closed (w : WriteEnv) (line : String) :
    ∀ (ds : List Dest) (l : Logger), l.file.closed = true →
      (l.multiWrite w line ds).file = l.file
  | [], l, _ => by simp [Logger.multiWrite]
  | d :: ds, l, h => by
    unfold Logger.multiWrite
    cases d with
    | stderr =>
      simp only [Logger.write]
      cases w.stderr
      · simp
      · exact multiWrite_closed w line ds _ h
    | file =>
      simp [Logger.write, File.Write, h]

/-- Once the file is closed, no run of `Relay` changes it, whatever the answers
to its writes: the lines it takes from the channel are not written. -/
theorem RelayLoop_closed (ws : Nat → WriteEnv) :
    ∀ (fuel : Nat) (l : Logger), l.file.closed = true → (l.RelayLoop ws fuel).file = l.file
  | 0, l, _ => rfl
  | fuel + 1, l, h => by
    unfold Logger.RelayLoop
    split_ifs with hr
    · rfl
    · simp only [Logger.Relay, Chan.recv]
      rcases hb : l.channel.buf with _ | ⟨m, rest⟩
      · cases hcl : l.channel.closed
        · simp
        · simp only [if_true]
          exact RelayLoop_closed ws fuel _ h
      · simp only [Bool.true_eq_false, if_false]
        have h1 : (Logger.Print (ws fuel)
            { l with channel := { l.channel with buf := rest } } m).file = l.file :=
          multiWrite_closed (ws fuel) m _ _ h
        rw [RelayLoop_closed ws fuel _ (by rw [h1]; exact h), h1]

/-- The sequential `GetLogger` is the nil check followed, when the variable is
nil, by `Registry.create`. -/
theorem GetLogger_eq_check_create (env : Env) (c : LogType) (r : Registry) :
    GetLogger env c r =
      match r.lookup c with
      | some l => if c = Access ∨ c = Error then (r, .ok l.addr) else r.create env c
      | none => r.create env c := by
  have hne : Error ≠ Access := by decide
  unfold GetLogger Registry.lookup Registry.create
  by_cases hA : c = Access
  · subst hA
    rcases r.accessLog with _ | l <;> simp
  · by_cases hE : c = Error
    · subst hE
      rcases r.errorLog with _ | l <;> simp [hne]
    · simp [hA, hE]

/-! ## Claims about `Close` -/

/-- C1 (fails on the code): with one line enqueued on the access logger before
`Close` is called, `Close` returns without a fault having closed the channel and
the file while the line is still pending and the file has no line; however long
`Relay` runs afterwards and whatever the operating system answers to its writes,
the file stays without the line; and `Relay` takes the line, passes it to
`Print` and returns: the line is lost. -/
theorem Close_loses_pending_line :
    ∃ a, (Close registryPending).2 = none ∧
      (Close registryPending).1.accessLog = some a ∧
      a.enqueued = ["internal/http.Start: GET /"] ∧
      a.channel.buf = ["internal/http.Start: GET /"] ∧
      a.channel.closed = true ∧ a.file.closed = true ∧ a.file.lines = [] ∧
      (∀ ws fuel, (a.RelayLoop ws fuel).file.lines = []) ∧
      (∀ ws, (a.RelayLoop ws 2).relay = .returned ∧
        (a.RelayLoop ws 2).channel.buf = [] ∧
        (a.RelayLoop ws 2).printed = ["internal/http.Start: GET /"]) := by
  refine ⟨_, rfl, rfl, rfl, rfl, rfl, rfl, rfl, ?_, ?_⟩
  · intro ws fuel
    rw [RelayLoop_closed ws fuel _ rfl]
    rfl
  · intro ws
    exact ⟨rfl, rfl, rfl⟩

/-- C3 (fails on the code): `Close` on a registry in which no logger has been
requested panics on the nil `accessLog` and closes nothing; with only the access
logger it closes the access channel, then panics on the nil `errorLog` and
leaves the access file open; with only the error logger it panics on the nil
`accessLog` and leaves the channel and the file of the error logger open; with
both loggers it closes both channels and both files once and returns. -/
theorem Close_nil_logger :
    Close Registry.init = (Registry.init, some nilDereference) ∧
    ((Close registryAfterAccess).2 = some nilDereference ∧
      ∃ a, (Close registryAfterAccess).1.accessLog = some a ∧
        a.channel.closed = true ∧ a.file.closed = false ∧ a.file.closeCalls = 0) ∧
    ((Close registryErrorOnly).2 = some nilDereference ∧
      ∃ e, (Close registryErrorOnly).1.errorLog = some e ∧
        e.channel.closed = false ∧ e.file.closed = false ∧ e.file.closeCalls = 0) ∧
    ((Close registryBoth).2 = none ∧
      ∃ a e, (Close registryBoth).1.accessLog = some a ∧
        (Close registryBoth).1.errorLog = some e ∧
        a.channel.closed = true ∧ a.file.closed = true ∧ a.file.closeCalls = 1 ∧
        e.channel.closed = true ∧ e.file.closed = true ∧ e.file.closeCalls = 1) :=
  ⟨rfl, ⟨rfl, _, rfl, rfl, rfl, rfl⟩, ⟨rfl, _, rfl, rfl, rfl, rfl⟩,
    ⟨rfl, _, _, rfl, rfl, rfl, rfl, rfl, rfl, rfl, rfl⟩⟩

/-! ## Claim about goroutines that call `GetLogger` at the same time -/

/-- C10 (fails on the code): when two goroutines call `GetLogger(Access)` in a
new process and both make the nil check before either assigns `accessLog`, they
return two different loggers, `createLogger` runs twice and the access log file
is opened twice. -/
theorem GetLogger_race :
    (Conc.run linuxEnv Access Conc.two [0, 1, 0, 1]).pcs = [.returned 0, .returned 1] ∧
    (Conc.run linuxEnv Access Conc.two [0, 1, 0, 1]).reg.created = [Access, Access] ∧
    (Conc.run linuxEnv Access Conc.two [0, 1, 0, 1]).reg.calls =
      [.Stat "/var/log/DMRHub" .found, .OpenFile "/var/log/DMRHub/DMRHub.access.log" true,
       .Stat "/var/log/DMRHub" .found, .OpenFile "/var/log/DMRHub/DMRHub.access.log" true] ∧
    filesOpened Access (Conc.run linuxEnv Access Conc.two [0, 1, 0, 1]).reg.calls = 2 :=
  ⟨rfl, rfl, rfl, by decide⟩

end DMRHub.Logging
